import Mathlib

/-!
# garb: binary resolution and installation pipeline

A shallow embedding of `pkg/install.go`, `pkg/source.go` and
`pkg/github/client.go`.

Conventions of the embedding.

* A Go `string` is a Lean `String`; Go strings that reach this code are valid
  UTF-8 (configuration values, JSON-decoded text), so byte-wise library
  functions whose patterns are ASCII (`strings.HasSuffix`, `path.Split`, the
  `%` scanning of `fmt`) are computed on characters.
* A `[]byte` is a list of byte values; the `nil` slice and the empty slice are
  both the empty list.
* A Go result `(v, err)` is a pair whose second component is `none` for a
  `nil` error and `some msg` for an error whose `Error()` text is `msg`.
* The standard library and the operating system are not part of the
  repository.  What the code observes of them is collected in `World`
  (gzip, tar, HTTP, JSON, the file system, the Unicode table of `strconv`);
  formatting with a constant format string is unfolded to the concatenation
  it denotes.
* `text/template` is modelled for templates made of text, field actions and
  `if` on a boolean constant; `World` answers for every other template and
  supplies the texts of the library's errors.
-/

namespace Garb

/-! ## Go values -/

abbrev Bytes := List Nat

abbrev GoError := String

/-- An `io.Reader` as the code observes it: the bytes it yields, then either
`io.EOF` (`none`) or a read error. -/
structure Stream where
  data : Bytes
  err : Option GoError
deriving DecidableEq, Repr

/-- Go `io.ReadAll`: everything read before the end, and the error that stopped
the read (`io.EOF` is reported as `nil`). -/
def ioReadAll (r : Stream) : Bytes × Option GoError :=
  (r.data, r.err)

/-- Go `strings.HasSuffix`. -/
def hasSuffix (s suffix : String) : Bool :=
  suffix.data.isSuffixOf s.data

/-- Go `path.Split`: the text up to and including the last slash, and the text
after it. -/
def pathSplit (path : String) : String × String :=
  (⟨(path.data.reverse.dropWhile (fun c => c != '/')).reverse⟩,
   ⟨(path.data.reverse.takeWhile (fun c => c != '/')).reverse⟩)

/-! ## strconv.Quote, as used by the `%q` verb -/

/-- Digit `n` of Go `lowerhex`. -/
def lowerhex (n : Nat) : Char :=
  "0123456789abcdef".data.getD (n % 16) '0'

/-- The `width` lowest hexadecimal digits of `n`, most significant first. -/
def hexDigits : Nat → Nat → List Char
  | 0, _ => []
  | width + 1, n => hexDigits width (n / 16) ++ [lowerhex n]

/-- Go `strconv.IsPrint`; `table` stands for the Unicode range tables that are
consulted above Latin-1. -/
def isPrint (table : Char → Bool) (r : Char) : Bool :=
  if r.toNat ≤ 0xFF then
    if 0x20 ≤ r.toNat ∧ r.toNat ≤ 0x7E then true
    else if 0xA1 ≤ r.toNat ∧ r.toNat ≤ 0xFF then r.toNat != 0xAD
    else false
  else table r

/-- Go `strconv.appendEscapedRune` with the double quote as delimiter and
neither `ASCIIonly` nor `graphicOnly`. -/
def appendEscapedRune (table : Char → Bool) (r : Char) : List Char :=
  if r = '"' ∨ r = '\\' then ['\\', r]
  else if isPrint table r then [r]
  else if r.toNat = 7 then ['\\', 'a']
  else if r.toNat = 8 then ['\\', 'b']
  else if r.toNat = 12 then ['\\', 'f']
  else if r.toNat = 10 then ['\\', 'n']
  else if r.toNat = 13 then ['\\', 'r']
  else if r.toNat = 9 then ['\\', 't']
  else if r.toNat = 11 then ['\\', 'v']
  else if r.toNat < 0x20 ∨ r.toNat = 0x7F then '\\' :: 'x' :: hexDigits 2 r.toNat
  else if r.toNat < 0x10000 then '\\' :: 'u' :: hexDigits 4 r.toNat
  else '\\' :: 'U' :: hexDigits 8 r.toNat

/-- Go `strconv.Quote`. -/
def strconvQuote (table : Char → Bool) (s : String) : String :=
  ⟨'"' :: (s.data.flatMap (appendEscapedRune table) ++ ['"'])⟩

/-! ## archive/tar and compress/gzip as the code observes them -/

/-- Go `tar.TypeReg`. -/
def TypeReg : Char := '0'

/-- Go `tar.TypeDir`. -/
def TypeDir : Char := '5'

/-- The fields of `tar.Header` that the code reads. -/
structure TarHeader where
  Typeflag : Char
  Name : String
deriving DecidableEq, Repr

/-- One successful `tarReader.Next()`: the header, and the reader positioned on
the entry body. -/
structure TarEntry where
  header : TarHeader
  body : Stream
deriving DecidableEq, Repr

/-- A `tar.Reader`: the entries `Next` returns in order, then `io.EOF`
(`final = none`) or an error from `Next`. -/
structure TarReader where
  entries : List TarEntry
  final : Option GoError
deriving DecidableEq, Repr

/-! ## fmt with a format string and no operands

`fmt.Errorf(format)` runs `doPrintf(format, nil)`.  With no operand the
operand counter `argNum` stays `0 = len(a)`, so every verb other than `%%`
reports a missing operand. -/

/-- The flag characters skipped after `%`. -/
def isFlag (c : Char) : Bool :=
  c = '#' ∨ c = '0' ∨ c = '+' ∨ c = '-' ∨ c = ' '

/-- Go `fmt.tooLarge`. -/
def tooLarge (x : Nat) : Bool :=
  decide (x > 1000000)

/-- The loop of Go `fmt.parsenum` over the text between `start` and `end`:
the number, whether a digit was seen, and the text left (nothing is left after
an overflow, where Go returns `newi = end`). -/
def parsenumLoop : Nat → Bool → List Char → Nat × Bool × List Char
  | num, isnum, [] => (num, isnum, [])
  | num, isnum, c :: cs =>
    if '0'.toNat ≤ c.toNat ∧ c.toNat ≤ '9'.toNat then
      if tooLarge num then (0, false, [])
      else parsenumLoop (num * 10 + (c.toNat - '0'.toNat)) true cs
    else (num, isnum, c :: cs)

/-- Go `fmt.parsenum`. -/
def parsenum (seg : List Char) : Nat × Bool × List Char :=
  parsenumLoop 0 false seg

/-- Go `fmt.parseArgNumber` on text starting with `[`: the index, the number
of characters taken, and whether the bracket held a number. -/
def parseArgNumber (format : List Char) : Int × Nat × Bool :=
  if format.length < 3 then (0, 1, false)
  else
    let tl := format.drop 1
    let j := tl.indexOf ']'
    if j < tl.length then
      match parsenum (tl.take j) with
      | (width, ok, rest) =>
        if !ok || !rest.isEmpty then (0, j + 2, false)
        else ((width : Int) - 1, j + 2, true)
    else (0, 1, false)

/-- Go `(*pp).argNumber` with `numArgs = 0`: the text left, `found`, and the
new value of `goodArgNum`. No index is in range, so a bracket always clears
`goodArgNum`. -/
def argNumber (format : List Char) (goodArgNum : Bool) : List Char × Bool × Bool :=
  match format with
  | '[' :: _ =>
    match parseArgNumber format with
    | (_, wid, ok) => (format.drop wid, ok, false)
  | _ => (format, false, goodArgNum)

def badWidthString : List Char := "%!(BADWIDTH)".data

def badPrecString : List Char := "%!(BADPREC)".data

def noVerbString : List Char := "%!(NOVERB)".data

/-- The width step of `doPrintf`: what is written, the text left, `afterIndex`
and `goodArgNum`. -/
def doWidth (format : List Char) (afterIndex goodArgNum : Bool) :
    List Char × List Char × Bool × Bool :=
  match format with
  | '*' :: t => (badWidthString, t, false, goodArgNum)
  | _ =>
    match parsenum format with
    | (_, widPresent, rest) =>
      ([], rest, afterIndex, if afterIndex && widPresent then false else goodArgNum)

/-- The precision step of `doPrintf`, entered on a `.` that is not the last
character of the format (`i+1 < end`). -/
def doPrec (format : List Char) (afterIndex goodArgNum : Bool) :
    List Char × List Char × Bool × Bool :=
  match format with
  | '.' :: c :: t =>
    match argNumber (c :: t) (if afterIndex then false else goodArgNum) with
    | (t1, afterIndex1, good1) =>
      match t1 with
      | '*' :: u => (badPrecString, u, false, good1)
      | _ => ([], (parsenum t1).2.2, afterIndex1, good1)
  | _ => ([], format, afterIndex, goodArgNum)

/-- One verb of `doPrintf` with no operand, on the text after `%`: what is
written and the text left. -/
def doVerb (format : List Char) : List Char × List Char :=
  match argNumber (format.dropWhile isFlag) true with
  | (s1, afterIndex1, good1) =>
    match doWidth s1 afterIndex1 good1 with
    | (outW, s2, afterIndex2, good2) =>
      match doPrec s2 afterIndex2 good2 with
      | (outP, s3, afterIndex3, good3) =>
        match (if afterIndex3 then (s3, afterIndex3, good3) else argNumber s3 good3) with
        | (s4, _, good4) =>
          match s4 with
          | [] => (outW ++ outP ++ noVerbString, [])
          | verb :: rest =>
            if verb = '%' then (outW ++ outP ++ ['%'], rest)
            else if !good4 then (outW ++ outP ++ '%' :: '!' :: verb :: "(BADINDEX)".data, rest)
            else (outW ++ outP ++ '%' :: '!' :: verb :: "(MISSING)".data, rest)

/-- The format loop of `doPrintf` with no operand; each round consumes at
least the `%` it stops on. -/
def doPrintfLoop : Nat → List Char → List Char
  | 0, _ => []
  | fuel + 1, format =>
    match format.dropWhile (fun c => c != '%') with
    | [] => format.takeWhile (fun c => c != '%')
    | _ :: afterPercent =>
      format.takeWhile (fun c => c != '%') ++ (doVerb afterPercent).1
        ++ doPrintfLoop fuel (doVerb afterPercent).2

/-- The `Error()` text of `fmt.Errorf(format)` called with a format string and
no operand. -/
def errorfNoOperands (format : String) : GoError :=
  ⟨doPrintfLoop (format.length + 1) format.data⟩

/-! ## path.Join -/

/-- The backward scan of `path.Clean` on `..`: lower `w` until it reaches
`dotdot` or a slash. -/
def cleanBacktrack (out : List Char) (dotdot : Nat) : Nat → Nat → Nat
  | 0, w => w
  | fuel + 1, w =>
    if w > dotdot ∧ out.getD w ' ' != '/' then cleanBacktrack out dotdot fuel (w - 1) else w

/-- The scanning loop of Go `path.Clean`: `out` is the buffer up to `out.w`. -/
def cleanLoop (rooted : Bool) : Nat → List Char → List Char → Nat → List Char
  | 0, _, out, _ => out
  | _ + 1, [], out, _ => out
  | fuel + 1, c :: t, out, dotdot =>
    if c = '/' then cleanLoop rooted fuel t out dotdot
    else if c = '.' ∧ (t = [] ∨ t.head? = some '/') then cleanLoop rooted fuel t out dotdot
    else if c = '.' ∧ t.head? = some '.' ∧ (t.drop 1 = [] ∨ (t.drop 1).head? = some '/') then
      if out.length > dotdot then
        cleanLoop rooted fuel (t.drop 1)
          (out.take (cleanBacktrack out dotdot out.length (out.length - 1))) dotdot
      else if !rooted then
        cleanLoop rooted fuel (t.drop 1)
          ((if out.length > 0 then out ++ ['/'] else out) ++ ['.', '.'])
          ((if out.length > 0 then out ++ ['/'] else out) ++ ['.', '.']).length
      else cleanLoop rooted fuel (t.drop 1) out dotdot
    else
      cleanLoop rooted fuel (t.dropWhile (fun x => x != '/'))
        ((if (rooted && out.length != 1) || (!rooted && out.length != 0) then out ++ ['/'] else out)
          ++ c :: t.takeWhile (fun x => x != '/'))
        dotdot

/-- Go `path.Clean`. -/
def pathClean (path : String) : String :=
  if path = "" then "."
  else
    let rooted := path.data.head? = some '/'
    let out := cleanLoop rooted (path.length + 1) path.data
      (if rooted then ['/'] else []) (if rooted then 1 else 0)
    if out.length = 0 then "." else ⟨out⟩

/-- The joining loop of Go `path.Join`: empty elements are dropped until the
buffer is non-empty. -/
def joinElems : List Char → List String → List Char
  | buf, [] => buf
  | buf, e :: rest =>
    if buf.length > 0 ∨ e ≠ "" then
      joinElems ((if buf.length > 0 then buf ++ ['/'] else buf) ++ e.data) rest
    else joinElems buf rest

/-- Go `path.Join`. -/
def pathJoin (elem : List String) : String :=
  if (elem.map String.length).sum = 0 then ""
  else pathClean ⟨joinElems [] elem⟩

/-! ## Data model -/

/-- Modelled from the spec: the declaration of `configBinary` is not among the
sources.  The fields are those the code reads (`Name`, `Version`, `Source`,
`Platforms`); `Platforms` maps the running OS to a map from the running
architecture to a two-element pair `[platformAlias, archAlias]`
(`map[string]map[string][2]string`).  A Go map is an association list read with
`List.lookup`; the `nil` map is the empty list. -/
structure configBinary where
  Name : String
  Version : String
  Source : String
  Platforms : List (String × List (String × (String × String)))
deriving DecidableEq, Repr

/-- Modelled from the spec: the declaration of the configuration type is not
among the sources; the code reads its `Binaries`. -/
structure Config where
  Binaries : List configBinary
deriving DecidableEq, Repr

/-- The view model of `pkg/source.go`. -/
structure urlViewModel where
  Version : String
  Platform : String
  Arch : String
deriving DecidableEq, Repr

/-! ### text/template

The part of the template language that is modelled: text, the action
`{{ .Field }}` and `{{if true}}`/`{{if false}}` with an optional `{{else}}`,
whose branches hold text and field actions, with ASCII identifiers and spaces
as the only white space.  Every other template is left to `World`. -/

/-- A node inside a branch of `if`: text, or the action `{{ .name }}`. -/
inductive TemplateItem where
  | text (s : String)
  | field (name : String)
deriving DecidableEq, Repr

/-- A top-level node: an item, or `{{if cond}} thenList {{else}} elseList {{end}}`
with a boolean constant as condition. -/
inductive TemplateNode where
  | item (i : TemplateItem)
  | ifConst (cond : Bool) (thenList elseList : List TemplateItem)
deriving DecidableEq, Repr

/-- A parsed `*template.Template`: its name, the text it was parsed from, and
its nodes when the text lies in the modelled part of the language. -/
inductive Template where
  | tree (name text : String) (nodes : List TemplateNode)
  | other (name text : String)
deriving DecidableEq, Repr

/-- What an action holds, as far as the modelled part goes. -/
inductive Action where
  | field (name : String)
  | ifConst (cond : Bool)
  | elseKeyword
  | endKeyword
deriving DecidableEq, Repr

/-- The left delimiter of an action. -/
def leftDelim : List Char := ['\x7b', '\x7b']

/-- The right delimiter of an action. -/
def rightDelim : List Char := ['\x7d', '\x7d']

/-- The text before the first left delimiter, and what follows that delimiter
(`none` when there is no delimiter). -/
def splitAtLeftDelim : List Char → List Char × Option (List Char)
  | [] => ([], none)
  | c :: cs =>
    if leftDelim.isPrefixOf (c :: cs) then ([], some (cs.drop 1))
    else ((c :: (splitAtLeftDelim cs).1), (splitAtLeftDelim cs).2)

def containsRightDelim : List Char → Bool
  | [] => false
  | c :: cs => rightDelim.isPrefixOf (c :: cs) || containsRightDelim cs

/-- Some left delimiter has no right delimiter anywhere after it.  The lexer
then reaches the end of the input inside an action, a string or a comment, and
`Parse` reports an error. -/
def hasUnclosedAction : List Char → Bool
  | [] => false
  | c :: cs =>
    (leftDelim.isPrefixOf (c :: cs) && !containsRightDelim (cs.drop 1)) || hasUnclosedAction cs

def isIdentStart (c : Char) : Bool :=
  c.isAlpha || c = '_'

def isIdentChar (c : Char) : Bool :=
  c.isAlphanum || c = '_'

/-- Spaces, then the right delimiter: the text after the action. -/
def closeAction (cs : List Char) : Option (List Char) :=
  if rightDelim.isPrefixOf (cs.dropWhile (fun c => c = ' ')) then
    some ((cs.dropWhile (fun c => c = ' ')).drop 2)
  else none

/-- The boolean constant after `if` and the spaces that follow it. -/
def parseCondition (cs : List Char) : Option (Action × List Char) :=
  if cs.takeWhile isIdentChar = "true".data then
    (closeAction (cs.dropWhile isIdentChar)).map (fun rest => (Action.ifConst true, rest))
  else if cs.takeWhile isIdentChar = "false".data then
    (closeAction (cs.dropWhile isIdentChar)).map (fun rest => (Action.ifConst false, rest))
  else none

/-- The action that starts after a left delimiter, and the text after its
right delimiter; `none` when the action is not of the modelled part. -/
def parseAction (cs : List Char) : Option (Action × List Char) :=
  match cs.dropWhile (fun c => c = ' ') with
  | '.' :: c :: rest =>
    if isIdentStart c then
      (closeAction (rest.dropWhile isIdentChar)).map
        (fun after => (Action.field ⟨c :: rest.takeWhile isIdentChar⟩, after))
    else none
  | cs1 =>
    if cs1.takeWhile isIdentChar = "else".data then
      (closeAction (cs1.dropWhile isIdentChar)).map (fun after => (Action.elseKeyword, after))
    else if cs1.takeWhile isIdentChar = "end".data then
      (closeAction (cs1.dropWhile isIdentChar)).map (fun after => (Action.endKeyword, after))
    else if cs1.takeWhile isIdentChar = "if".data then
      match cs1.dropWhile isIdentChar with
      | ' ' :: after => parseCondition (after.dropWhile (fun c => c = ' '))
      | _ => none
    else none

/-- A text node, unless the text is empty. -/
def textItem (text : List Char) : List TemplateItem :=
  if text = [] then [] else [TemplateItem.text ⟨text⟩]

/-- The items of a branch up to its `{{else}}` or `{{end}}`: the items, whether
the branch ended on `{{else}}`, and the text that follows. -/
def parseBranch : Nat → List Char → Option (List TemplateItem × Bool × List Char)
  | 0, _ => none
  | fuel + 1, cs =>
    match (splitAtLeftDelim cs).2 with
    | none => none
    | some rest =>
      match parseAction rest with
      | some (Action.field name, after) =>
        (parseBranch fuel after).map (fun r =>
          (textItem (splitAtLeftDelim cs).1 ++ TemplateItem.field name :: r.1, r.2))
      | some (Action.elseKeyword, after) => some (textItem (splitAtLeftDelim cs).1, true, after)
      | some (Action.endKeyword, after) => some (textItem (splitAtLeftDelim cs).1, false, after)
      | _ => none

/-- The nodes of a template of the modelled part. -/
def parseNodes : Nat → List Char → Option (List TemplateNode)
  | 0, _ => none
  | fuel + 1, cs =>
    match (splitAtLeftDelim cs).2 with
    | none => some ((textItem (splitAtLeftDelim cs).1).map TemplateNode.item)
    | some rest =>
      match parseAction rest with
      | some (Action.field name, after) =>
        (parseNodes fuel after).map (fun nodes =>
          (textItem (splitAtLeftDelim cs).1).map TemplateNode.item
            ++ TemplateNode.item (TemplateItem.field name) :: nodes)
      | some (Action.ifConst cond, after) =>
        match parseBranch fuel after with
        | some (thenList, false, after1) =>
          (parseNodes fuel after1).map (fun nodes =>
            (textItem (splitAtLeftDelim cs).1).map TemplateNode.item
              ++ TemplateNode.ifConst cond thenList [] :: nodes)
        | some (thenList, true, after1) =>
          match parseBranch fuel after1 with
          | some (elseList, false, after2) =>
            (parseNodes fuel after2).map (fun nodes =>
              (textItem (splitAtLeftDelim cs).1).map TemplateNode.item
                ++ TemplateNode.ifConst cond thenList elseList :: nodes)
          | _ => none
        | none => none
      | _ => none

/-- The nodes of a template text, when it lies in the modelled part: every
action is closed and is one of the modelled actions. -/
def parseTemplate (text : String) : Option (List TemplateNode) :=
  if hasUnclosedAction text.data then none else parseNodes (text.length + 1) text.data

/-- The fields of the view model: `Version`, `Platform`, `Arch`. -/
def viewModelFields : List String := ["Version", "Platform", "Arch"]

/-- The items that execution reaches: those of the branch that is taken. -/
def evaluatedItems : List TemplateNode → List TemplateItem
  | [] => []
  | TemplateNode.item i :: nodes => i :: evaluatedItems nodes
  | TemplateNode.ifConst cond thenList elseList :: nodes =>
    (if cond then thenList else elseList) ++ evaluatedItems nodes

/-- The names of the fields in a list of items. -/
def itemFields : List TemplateItem → List String
  | [] => []
  | TemplateItem.text _ :: items => itemFields items
  | TemplateItem.field name :: items => name :: itemFields items

/-- The fields that execution evaluates. -/
def evaluatedFields (nodes : List TemplateNode) : List String :=
  itemFields (evaluatedItems nodes)

/-- The fields a template refers to, in whichever branch. -/
def referencedFields : List TemplateNode → List String
  | [] => []
  | TemplateNode.item i :: nodes => itemFields [i] ++ referencedFields nodes
  | TemplateNode.ifConst _ thenList elseList :: nodes =>
    itemFields thenList ++ itemFields elseList ++ referencedFields nodes

/-- An `*http.Response`: the fields the code reads. -/
structure Response where
  StatusCode : Nat
  Body : Stream
deriving DecidableEq, Repr

/-- Files on disk: path and content. -/
abbrev Files := List (String × Bytes)

/-- How `os.WriteFile` ends.  It opens the file with `O_WRONLY|O_CREATE|O_TRUNC`,
writes, and closes: when the open fails nothing has changed; when the write or
the close fails the file has been created or truncated and holds the bytes
written so far. -/
inductive WriteOutcome where
  | ok
  | openFailed (err : GoError)
  | writeFailed (err : GoError) (written : Nat)
deriving DecidableEq, Repr

/-- What the code observes of the standard library, the operating system and
the network. -/
structure World where
  /-- Go `runtime.GOOS` -/
  GOOS : String
  /-- Go `runtime.GOARCH` -/
  GOARCH : String
  /-- The Unicode tables of `strconv.IsPrint` above Latin-1 -/
  unicodeIsPrint : Char → Bool
  /-- Go `gzip.NewReader` on a buffer: a header error, or the decompressed stream -/
  gzipNewReader : Bytes → Except GoError Stream
  /-- Go `tar.NewReader` on a stream -/
  tarNewReader : Stream → TarReader
  /-- The text of the error of `template.New(name).Parse(text)` for a text with
  an unclosed action -/
  templateParseError : String → String → GoError
  /-- The error of `template.New(name).Parse(text)`, if any, for a text outside
  the modelled part of the language -/
  templateParseOther : String → String → Option GoError
  /-- The text of the error of `Execute` for the template of a name and text
  whose execution evaluates an undefined field -/
  templateExecuteError : String → String → GoError
  /-- Go `(*Template).Execute` for a template outside the modelled part: what was
  written to the buffer, and the error -/
  templateExecuteOther : String → String → urlViewModel → String × Option GoError
  /-- Go `http.Get` -/
  httpGet : String → Except GoError Response
  /-- The result of `loadConfig()`, whose body is not among the sources -/
  loadConfig : Except GoError Config
  /-- Go `os.UserHomeDir` -/
  userHomeDir : Except GoError String
  /-- The outcome of `os.WriteFile(path, data, 0744)` on the given files -/
  osWriteFile : Files → String → Bytes → WriteOutcome

/-! ## pkg/install.go -/

def localBinPath : String := ".local/bin"

/-- The error of `unTgzFileNamed` after the last entry:
`fmt.Errorf("No file named %q found in archive", binaryName)`. -/
def notFoundInArchive (w : World) (binaryName : String) : GoError :=
  "No file named " ++ strconvQuote w.unicodeIsPrint binaryName ++ " found in archive"

/-- The `for` loop of `unTgzFileNamed` over the results of `tarReader.Next()`. -/
def unTgzFileNamed.loop (w : World) (binaryName : String) :
    List TarEntry → Option GoError → Bytes × Option GoError
  | [], none => ([], some (notFoundInArchive w binaryName))
  | [], some err => ([], some ("Error extracting from tar: " ++ err))
  | entry :: rest, final =>
    if entry.header.Typeflag = TypeReg then
      if (pathSplit entry.header.Name).2 ≠ binaryName then
        unTgzFileNamed.loop w binaryName rest final
      else
        match ioReadAll entry.body with
        | (_, some err) => ([], some ("Error extracting file from tar: " ++ err))
        | (outData, none) => (outData, none)
    else unTgzFileNamed.loop w binaryName rest final

def unTgzFileNamed (w : World) (binaryName : String) (data : Bytes) : Bytes × Option GoError :=
  match w.gzipNewReader data with
  | .error err => ([], some ("Error decompressing Gzipped data: " ++ err))
  | .ok decompressed =>
    unTgzFileNamed.loop w binaryName (w.tarNewReader decompressed).entries
      (w.tarNewReader decompressed).final

def unGzip (w : World) (data : Bytes) : Bytes × Option GoError :=
  match w.gzipNewReader data with
  | .error err => ([], some ("Error decompressing Gzipped data: " ++ err))
  | .ok decompressed => ioReadAll decompressed

/-- Lines 74 to 88 of `fetchBinaryData`: the dispatch on the suffix of the URL,
applied to the bytes that were fetched. -/
def fetchBinaryData.extract (w : World) (binaryName sourceUrl : String) (data : Bytes) :
    Bytes × Option GoError :=
  if hasSuffix sourceUrl ".tar.gz" || hasSuffix sourceUrl ".tgz" then
    match unTgzFileNamed w binaryName data with
    | (_, some err) => ([], some ("Error extracting binary from tgz archive: " ++ err))
    | (data, none) => (data, none)
  else if hasSuffix sourceUrl ".gz" then
    match unGzip w data with
    | (_, some err) => ([], some ("Error extracting binary from gzip archive: " ++ err))
    | (data, none) => (data, none)
  else (data, none)

def fetchBinaryData (w : World) (binaryName sourceUrl : String) : Bytes × Option GoError :=
  match w.httpGet sourceUrl with
  | .error err => ([], some ("Error requesting binary: " ++ err))
  | .ok resp =>
    match ioReadAll resp.Body with
    | (_, some err) => ([], some ("Error reading response body: " ++ err))
    | (data, none) => fetchBinaryData.extract w binaryName sourceUrl data

/-! ## pkg/source.go -/

def newUrlViewModel (w : World) (binary : configBinary) : urlViewModel :=
  match binary.Platforms.lookup w.GOOS with
  | some pOverrides =>
    match pOverrides.lookup w.GOARCH with
    | some aOverrides =>
      { Version := binary.Version, Platform := aOverrides.1, Arch := aOverrides.2 }
    | none => { Version := binary.Version, Platform := w.GOOS, Arch := w.GOARCH }
  | none => { Version := binary.Version, Platform := w.GOOS, Arch := w.GOARCH }

/-- Go `template.New(name).Parse(text)`. -/
def templateParse (w : World) (name text : String) : Except GoError Template :=
  if hasUnclosedAction text.data then .error (w.templateParseError name text)
  else
    match parseTemplate text with
    | some nodes => .ok (Template.tree name text nodes)
    | none =>
      match w.templateParseOther name text with
      | some err => .error err
      | none => .ok (Template.other name text)

/-- The value of a field of the view model; `none` for a name that is not a
field of `urlViewModel`. -/
def fieldValue (vm : urlViewModel) (name : String) : Option String :=
  if name = "Version" then some vm.Version
  else if name = "Platform" then some vm.Platform
  else if name = "Arch" then some vm.Arch
  else none

/-- Execution of the items that are reached, in order: what is written, and
whether an undefined field stopped the execution. -/
def executeItems (vm : urlViewModel) : List TemplateItem → String × Bool
  | [] => ("", false)
  | TemplateItem.text s :: items =>
    (s ++ (executeItems vm items).1, (executeItems vm items).2)
  | TemplateItem.field name :: items =>
    match fieldValue vm name with
    | some value => (value ++ (executeItems vm items).1, (executeItems vm items).2)
    | none => ("", true)

/-- Go `(*Template).Execute` into a buffer with the view model as data: what
was written to the buffer, and the error. -/
def templateExecute (w : World) (tmpl : Template) (vm : urlViewModel) : String × Option GoError :=
  match tmpl with
  | Template.tree name text nodes =>
    if (executeItems vm (evaluatedItems nodes)).2 then
      ((executeItems vm (evaluatedItems nodes)).1, some (w.templateExecuteError name text))
    else ((executeItems vm (evaluatedItems nodes)).1, none)
  | Template.other name text => w.templateExecuteOther name text vm

def getSourceUrl (w : World) (binary : configBinary) : String × Option GoError :=
  match templateParse w ("sourceUrl" ++ binary.Name) binary.Source with
  | .error err => ("", some ("Error parsing Source as template: " ++ err))
  | .ok tmpl =>
    match templateExecute w tmpl (newUrlViewModel w binary) with
    | (_, some err) => ("", some ("Error rendering Source as template: " ++ err))
    | (output, none) => (output, none)

/-! ## Install -/

/-- The state `Install` acts on: the files on disk, and a record of each call
that reaches outside the process, in call order. -/
structure State where
  files : Files
  /-- paths given to `os.Stat` -/
  statLog : List String
  /-- names of the binaries given to `getSourceUrl` -/
  resolveLog : List String
  /-- URLs given to `http.Get` -/
  fetchLog : List String
  /-- paths and contents given to `os.WriteFile` -/
  writeLog : List (String × Bytes)
  /-- lines printed with `fmt.Printf` -/
  stdout : List String
deriving DecidableEq, Repr

/-- Whether `os.Stat(path)` returns a `nil` error: the path is on disk. -/
def statOk (files : Files) (path : String) : Bool :=
  files.any (fun f => f.1 == path)

/-- The effect of `os.WriteFile` once the file is open: the path holds the
data that was written. -/
def writeFile (files : Files) (path : String) (data : Bytes) : Files :=
  (path, data) :: files.filter (fun f => f.1 != path)

def destPath (homeDir : String) (binary : configBinary) : String :=
  pathJoin [homeDir, localBinPath, binary.Name]

/-- The body of the `for` loop of `Install` for one binary: the error that ends
the run (`none` when the loop goes on) and the state afterwards. -/
def Install.body (w : World) (homeDir : String) (binary : configBinary) (s : State) :
    Option GoError × State :=
  let s1 := { s with statLog := s.statLog ++ [destPath homeDir binary] }
  if statOk s.files (destPath homeDir binary) then
    (none, { s1 with stdout := s1.stdout ++ [binary.Name ++ " already installed\n"] })
  else
    let s2 := { s1 with stdout := s1.stdout ++ ["Installing " ++ binary.Name ++ "...\n"],
                        resolveLog := s1.resolveLog ++ [binary.Name] }
    match getSourceUrl w binary with
    | (_, some err) =>
      (some ("Error getting source url for " ++ binary.Name ++ ": " ++ err), s2)
    | (sourceUrl, none) =>
      let s3 := { s2 with fetchLog := s2.fetchLog ++ [sourceUrl] }
      match fetchBinaryData w binary.Name sourceUrl with
      | (_, some err) =>
        (some ("Error downloading binary for " ++ binary.Name ++ ": " ++ err), s3)
      | (data, none) =>
        let s4 := { s3 with writeLog := s3.writeLog ++ [(destPath homeDir binary, data)] }
        match w.osWriteFile s.files (destPath homeDir binary) data with
        | WriteOutcome.openFailed err => (some ("Error writing binary to disk: " ++ err), s4)
        | WriteOutcome.writeFailed err written =>
          (some ("Error writing binary to disk: " ++ err),
           { s4 with files := writeFile s.files (destPath homeDir binary) (data.take written) })
        | WriteOutcome.ok =>
          (none, { s4 with files := writeFile s.files (destPath homeDir binary) data,
                           stdout := s4.stdout ++ [binary.Name ++ " has been installed\n"] })

/-- The `for` loop of `Install`: a `return` inside the body ends it. -/
def Install.loop (w : World) (homeDir : String) : List configBinary → State → Option GoError × State
  | [], s => (none, s)
  | binary :: rest, s =>
    match Install.body w homeDir binary s with
    | (some err, s1) => (some err, s1)
    | (none, s1) => Install.loop w homeDir rest s1

def Install (w : World) (s : State) : Option GoError × State :=
  match w.loadConfig with
  | .error err => (some ("Error loading config: " ++ err), s)
  | .ok config =>
    match w.userHomeDir with
    | .error err => (some ("Error determining home directory: " ++ err), s)
    | .ok homeDir => Install.loop w homeDir config.Binaries s

/-! ## pkg/github/client.go -/

namespace github

structure errorBody where
  Message : String
deriving DecidableEq, Repr

/-- Modelled from the spec: the declaration of `Release` is not among the
sources; a release carries a tag and the names of its assets. -/
structure Release where
  TagName : String
  Assets : List String
deriving DecidableEq, Repr

/-- An `*http.Request`: method, URL and the header lines added to it. -/
structure Request where
  Method : String
  URL : String
  Header : List (String × String)
deriving DecidableEq, Repr

/-- What the release client observes of the standard library, the process
environment and the network. -/
structure ClientWorld where
  /-- Go `os.Getenv` -/
  getenv : String → String
  /-- The error of `http.NewRequestWithContext` for a method and URL, if any -/
  newRequestError : String → String → Option GoError
  /-- Go `http.DefaultClient.Do` -/
  httpDo : Request → Except GoError Response
  /-- Go `json.Unmarshal` into a `Release` -/
  jsonUnmarshalRelease : Bytes → Except GoError Release
  /-- Go `json.Unmarshal` into an `errorBody` -/
  jsonUnmarshalErrorBody : Bytes → Except GoError errorBody

def StatusOK : Nat := 200

def parseRelease (w : ClientWorld) (data : Bytes) : Option Release × Option GoError :=
  match w.jsonUnmarshalRelease data with
  | .error err => (none, some ("error parsing response as JSON: " ++ err))
  | .ok output => (some output, none)

def parseError (w : ClientWorld) (data : Bytes) : Option Release × Option GoError :=
  match w.jsonUnmarshalErrorBody data with
  | .error err => (none, some ("error parsing error response as JSON: " ++ err))
  | .ok output => (none, some (errorfNoOperands output.Message))

def GetLatestRelease (w : ClientWorld) (org repo : String) : Option Release × Option GoError :=
  let url := "https://api.github.com/repos/" ++ org ++ "/" ++ repo ++ "/releases/latest"
  match w.newRequestError "GET" url with
  | some err => (none, some ("error creating GET request: " ++ err))
  | none =>
    let header := [("Accept", "application/vnd.github+json"), ("X-GitHub-Api-Version", "2022-11-28")]
    let header := if w.getenv "GH_TOKEN" ≠ "" then
      header ++ [("Authorization", "Bearer " ++ w.getenv "GH_TOKEN")] else header
    match w.httpDo { Method := "GET", URL := url, Header := header } with
    | .error err => (none, some ("error executing request: " ++ err))
    | .ok resp =>
      match ioReadAll resp.Body with
      | (_, some err) => (none, some ("error reading response body: " ++ err))
      | (data, none) =>
        if resp.StatusCode = StatusOK then parseRelease w data else parseError w data

end github

/-! ## Properties stated in the words of the specification -/

/-- A tar entry is a regular file whose name, after its last slash, is
`binaryName`. -/
def isNamed (binaryName : String) (entry : TarEntry) : Prop :=
  entry.header.Typeflag = TypeReg ∧ (pathSplit entry.header.Name).2 = binaryName

/-- A well-formed gzip-compressed tar payload with the given entries: the gzip
header is read, `Next` yields the entries and then `io.EOF`, and every entry
body reads to its end. -/
def IsTgzOf (w : World) (data : Bytes) (entries : List TarEntry) : Prop :=
  ∃ decompressed, w.gzipNewReader data = .ok decompressed ∧
    w.tarNewReader decompressed = { entries := entries, final := none } ∧
    ∀ entry ∈ entries, entry.body.err = none

/-- A name that `%q` renders verbatim: printable characters other than the
double quote and the backslash. -/
def IsPlainName (w : World) (name : String) : Prop :=
  ∀ c ∈ name.data, isPrint w.unicodeIsPrint c = true ∧ c ≠ '"' ∧ c ≠ '\\'

/-- The error text starts with the parse-stage marker of `getSourceUrl`. -/
def IsParseStage (err : GoError) : Prop :=
  "Error parsing Source as template".data <+: err.data

/-- The error text starts with the render-stage marker of `getSourceUrl`. -/
def IsRenderStage (err : GoError) : Prop :=
  "Error rendering Source as template".data <+: err.data

/-- URL resolution fails: the `Source` does not parse, or it parses and its
execution against the view model fails. -/
def ResolveFails (w : World) (binary : configBinary) : Prop :=
  (∃ err, templateParse w ("sourceUrl" ++ binary.Name) binary.Source = .error err) ∨
  (∃ tmpl output err, templateParse w ("sourceUrl" ++ binary.Name) binary.Source = .ok tmpl ∧
    templateExecute w tmpl (newUrlViewModel w binary) = (output, some err))

/-- URL resolution yields `url`. -/
def ResolvesTo (w : World) (binary : configBinary) (url : String) : Prop :=
  ∃ tmpl, templateParse w ("sourceUrl" ++ binary.Name) binary.Source = .ok tmpl ∧
    templateExecute w tmpl (newUrlViewModel w binary) = (url, none)

/-- The fetch fails: the request fails, or the response body does not read to
its end. -/
def FetchFails (w : World) (url : String) : Prop :=
  (∃ err, w.httpGet url = .error err) ∨
  (∃ resp err, w.httpGet url = .ok resp ∧ resp.Body.err = some err)

/-- Extraction from a gzip-compressed tar payload fails: the gzip header is
bad, or no entry is a regular file of the sought base name (the archive ends
or `Next` fails before one is met), or the body of the first such entry does
not read to its end. -/
def TgzFails (w : World) (binaryName : String) (data : Bytes) : Prop :=
  (∃ err, w.gzipNewReader data = .error err) ∨
  (∃ decompressed, w.gzipNewReader data = .ok decompressed ∧
    ((∀ e ∈ (w.tarNewReader decompressed).entries, ¬ isNamed binaryName e) ∨
     (∃ before entry after err,
        (w.tarNewReader decompressed).entries = before ++ entry :: after ∧
        (∀ e ∈ before, ¬ isNamed binaryName e) ∧ isNamed binaryName entry ∧
        entry.body.err = some err)))

/-- Decompression of a plain gzip payload fails: the gzip header is bad, or the
stream does not read to its end. -/
def GzFails (w : World) (data : Bytes) : Prop :=
  (∃ err, w.gzipNewReader data = .error err) ∨
  (∃ decompressed err, w.gzipNewReader data = .ok decompressed ∧ decompressed.err = some err)

/-- Extraction fails, in the case the suffix of the URL selects. -/
def ExtractFails (w : World) (binaryName sourceUrl : String) (data : Bytes) : Prop :=
  ((hasSuffix sourceUrl ".tar.gz" = true ∨ hasSuffix sourceUrl ".tgz" = true) ∧
    TgzFails w binaryName data) ∨
  (hasSuffix sourceUrl ".tar.gz" = false ∧ hasSuffix sourceUrl ".tgz" = false ∧
    hasSuffix sourceUrl ".gz" = true ∧ GzFails w data)

/-- The write to the destination fails. -/
def WriteFails (w : World) (files : Files) (path : String) (data : Bytes) : Prop :=
  (∃ err, w.osWriteFile files path data = WriteOutcome.openFailed err) ∨
  (∃ err written, w.osWriteFile files path data = WriteOutcome.writeFailed err written)

/-- The processing of a binary fails at some phase: at URL resolution, or, with
the URL resolved, at the fetch, or, with the payload fetched, at extraction,
or, with the bytes extracted, at the write. -/
def ProcessingFails (w : World) (homeDir : String) (binary : configBinary) (files : Files) :
    Prop :=
  ResolveFails w binary ∨
  ∃ url, ResolvesTo w binary url ∧
    (FetchFails w url ∨
     ∃ resp, w.httpGet url = .ok resp ∧ resp.Body.err = none ∧
       (ExtractFails w binary.Name url resp.Body.data ∨
        ∃ data, fetchBinaryData.extract w binary.Name url resp.Body.data = (data, none) ∧
          WriteFails w files (destPath homeDir binary) data))

/-! ## Example worlds -/

/-- The directory entry `dir/`. -/
def exampleDir : TarEntry :=
  { header := { Typeflag := TypeDir, Name := "dir/" }, body := { data := [], err := none } }

/-- The regular file `dir/other`. -/
def exampleOther : TarEntry :=
  { header := { Typeflag := TypeReg, Name := "dir/other" }, body := { data := [1, 2], err := none } }

/-- The regular file `dir/foo`. -/
def exampleFoo : TarEntry :=
  { header := { Typeflag := TypeReg, Name := "dir/foo" }, body := { data := [3, 4, 5], err := none } }

/-- The entries `dir/`, `dir/other`, `dir/foo` of the example archive. -/
def exampleEntries : List TarEntry :=
  [exampleDir, exampleOther] ++ exampleFoo :: []

/-- Stands for the compressed bytes of the example archive. -/
def exampleTgz : Bytes := [31, 139, 1]

/-- Stands for the decompressed bytes of the example archive. -/
def exampleTar : Bytes := [100, 105, 114]

/-- Stands for a gzip stream that decompresses to `[7, 8, 9]`. -/
def exampleGz : Bytes := [31, 139, 2]

def fooBinary : configBinary :=
  { Name := "foo", Version := "1.2.3", Source := "https://example.com/dl/foo.tar.gz", Platforms := [] }

def jqBinary : configBinary :=
  { Name := "jq", Version := "1.7", Source := "https://example.com/dl/jq.exe",
    Platforms := [("linux", [("amd64", ("unknown-linux", "x86_64"))])] }

/-- A world with an archive, a gzip stream and a plain file on the network,
a manifest of two binaries and a writable disk.  No template outside the
modelled part of the language occurs in the examples. -/
def exampleWorld : World where
  GOOS := "linux"
  GOARCH := "amd64"
  unicodeIsPrint := fun _ => true
  gzipNewReader := fun data =>
    if data = exampleTgz then .ok { data := exampleTar, err := none }
    else if data = exampleGz then .ok { data := [7, 8, 9], err := none }
    else .error "gzip: invalid header"
  tarNewReader := fun r =>
    if r.data = exampleTar then { entries := exampleEntries, final := none }
    else { entries := [], final := some "unexpected EOF" }
  templateParseError := fun name _ => "template: " ++ name ++ ":1: unclosed action"
  templateParseOther := fun name _ => some ("template: " ++ name ++ ":1: unexpected input")
  templateExecuteError := fun name _ =>
    "template: " ++ name ++ ": executing \"" ++ name
      ++ "\": can't evaluate field in type pkg.urlViewModel"
  templateExecuteOther := fun _ _ _ => ("", none)
  httpGet := fun url =>
    if url = "https://example.com/dl/foo.tar.gz" then
      .ok { StatusCode := 200, Body := { data := exampleTgz, err := none } }
    else if url = "https://example.com/dl/jq.exe" then
      .ok { StatusCode := 200, Body := { data := [77, 90], err := none } }
    else .error ("Get \"" ++ url ++ "\": dial tcp: lookup failed")
  loadConfig := .ok { Binaries := [fooBinary, jqBinary] }
  userHomeDir := .ok "/home/u"
  osWriteFile := fun _ _ _ => WriteOutcome.ok

/-- The example world with a read-only destination directory. -/
def readOnlyWorld : World :=
  { exampleWorld with
    osWriteFile := fun _ path _ =>
      WriteOutcome.openFailed ("open " ++ path ++ ": permission denied") }

/-- The example world with a full disk: the file is created and the write
stops after one byte. -/
def diskFullWorld : World :=
  { exampleWorld with
    osWriteFile := fun _ path _ =>
      WriteOutcome.writeFailed ("write " ++ path ++ ": no space left on device") 1 }

/-- A manifest whose only binary is named by a relative path. -/
def dotSlashWorld : World :=
  { readOnlyWorld with
    loadConfig := .ok { Binaries := [{ jqBinary with Name := "./jq" }] } }

/-- An empty disk and empty logs. -/
def emptyState : State :=
  { files := [], statLog := [], resolveLog := [], fetchLog := [], writeLog := [], stdout := [] }

/-- The state after a first run in the example world from `emptyState`. -/
def installedState : State :=
  { files := [("/home/u/.local/bin/jq", [77, 90]), ("/home/u/.local/bin/foo", [3, 4, 5])],
    statLog := ["/home/u/.local/bin/foo", "/home/u/.local/bin/jq"],
    resolveLog := ["foo", "jq"],
    fetchLog := ["https://example.com/dl/foo.tar.gz", "https://example.com/dl/jq.exe"],
    writeLog := [("/home/u/.local/bin/foo", [3, 4, 5]), ("/home/u/.local/bin/jq", [77, 90])],
    stdout := ["Installing foo...\n", "foo has been installed\n", "Installing jq...\n",
               "jq has been installed\n"] }

/-- A declaration whose `Source` has an unclosed action. -/
def badBinary : configBinary :=
  { Name := "bad", Version := "0.1", Source := "v\x7b\x7b .Version", Platforms := [] }

/-- The example world with a manifest of three binaries, the second of which
fails at URL resolution. -/
def brokenWorld : World :=
  { exampleWorld with loadConfig := .ok { Binaries := [fooBinary] ++ badBinary :: [jqBinary] } }

/-- The state after `fooBinary` is installed from `emptyState`. -/
def fooInstalledState : State :=
  { files := [("/home/u/.local/bin/foo", [3, 4, 5])],
    statLog := ["/home/u/.local/bin/foo"],
    resolveLog := ["foo"],
    fetchLog := ["https://example.com/dl/foo.tar.gz"],
    writeLog := [("/home/u/.local/bin/foo", [3, 4, 5])],
    stdout := ["Installing foo...\n", "foo has been installed\n"] }

/-- The state in which the run of `brokenWorld` ends. -/
def badFailedState : State :=
  { fooInstalledState with
    statLog := ["/home/u/.local/bin/foo", "/home/u/.local/bin/bad"],
    resolveLog := ["foo", "bad"],
    stdout := ["Installing foo...\n", "foo has been installed\n", "Installing bad...\n"] }

/-- A well-formed template that refers to an undefined field in a branch that
is not taken. -/
def deadBranchSource : String :=
  "\x7b\x7bif false\x7d\x7d\x7b\x7b.DoesNotExist\x7d\x7d\x7b\x7bend\x7d\x7dx"

/-- The state in which the run of `diskFullWorld` ends. -/
def diskFullState : State :=
  { files := [("/home/u/.local/bin/foo", [3])],
    statLog := ["/home/u/.local/bin/foo"],
    resolveLog := ["foo"],
    fetchLog := ["https://example.com/dl/foo.tar.gz"],
    writeLog := [("/home/u/.local/bin/foo", [3, 4, 5])],
    stdout := ["Installing foo...\n"] }

/-- The body of a rate-limit response. -/
def quotaBody : Bytes :=
  "\x7b\"message\":\"100% of quota used\"\x7d".data.map Char.toNat

/-- A release index that answers 403 with `quotaBody`. -/
def quotaWorld : github.ClientWorld where
  getenv := fun _ => ""
  newRequestError := fun _ _ => none
  httpDo := fun _ => .ok { StatusCode := 403, Body := { data := quotaBody, err := none } }
  jsonUnmarshalRelease := fun _ => .error "json: cannot unmarshal"
  jsonUnmarshalErrorBody := fun data =>
    if data = quotaBody then .ok { Message := "100% of quota used" }
    else .error "unexpected end of JSON input"

end Garb

namespace Garb

/-! ## Archive extractor: dispatch on the URL suffix -/

theorem hasSuffix_iff (s suffix : String) :
    hasSuffix s suffix = true ↔ suffix.data <:+ s.data := by
  simp [hasSuffix]

theorem hasSuffix_gz_of_tar_gz (s : String) (h : hasSuffix s ".tar.gz" = true) :
    hasSuffix s ".gz" = true := by
  rw [hasSuffix_iff] at *
  exact List.IsSuffix.trans (by decide) h

/-- C10. When the source URL ends in none of `.tar.gz`, `.tgz` and `.gz`, the
extraction step of `fetchBinaryData` succeeds and returns the fetched bytes
unmodified, for every payload and every binary name; nothing of the world
(no decoder) is consulted, the result being the same in every world. -/
theorem extract_other_suffix (w : World) (binaryName sourceUrl : String) (data : Bytes)
    (hTarGz : hasSuffix sourceUrl ".tar.gz" = false)
    (hTgz : hasSuffix sourceUrl ".tgz" = false)
    (hGz : hasSuffix sourceUrl ".gz" = false) :
    fetchBinaryData.extract w binaryName sourceUrl data = (data, none) := by
  simp [fetchBinaryData.extract, hTarGz, hTgz, hGz]

theorem extract_other_suffix_witness :
    hasSuffix "https://example.com/dl/jq.exe" ".tar.gz" = false ∧
    hasSuffix "https://example.com/dl/jq.exe" ".tgz" = false ∧
    hasSuffix "https://example.com/dl/jq.exe" ".gz" = false ∧
    fetchBinaryData.extract exampleWorld "jq" "https://example.com/dl/jq.exe" [77, 90]
      = ([77, 90], none) :=
  ⟨by decide, by decide, by decide,
   extract_other_suffix exampleWorld "jq" "https://example.com/dl/jq.exe" [77, 90]
    (by decide) (by decide) (by decide)⟩

/-- C9. When the source URL ends in `.gz` but in neither `.tar.gz` nor `.tgz`,
the extraction step of `fetchBinaryData` is `unGzip` of the fetched bytes with
its error wrapped: a payload that decompresses to its end yields exactly the
decompressed bytes, and the result is the same for every binary name.  A URL
ending in `.tar.gz` is handled by `unTgzFileNamed`, not by `unGzip`, although
it ends in `.gz` as well. -/
theorem extract_plain_gzip (w : World) (sourceUrl : String) (data : Bytes)
    (hGz : hasSuffix sourceUrl ".gz" = true)
    (hTarGz : hasSuffix sourceUrl ".tar.gz" = false)
    (hTgz : hasSuffix sourceUrl ".tgz" = false) :
    (∀ binaryName, fetchBinaryData.extract w binaryName sourceUrl data =
      match unGzip w data with
      | (_, some err) => ([], some ("Error extracting binary from gzip archive: " ++ err))
      | (out, none) => (out, none)) ∧
    (∀ binaryName decompressed, w.gzipNewReader data = .ok decompressed →
      decompressed.err = none →
      fetchBinaryData.extract w binaryName sourceUrl data = (decompressed.data, none)) ∧
    (∀ name₁ name₂, fetchBinaryData.extract w name₁ sourceUrl data
      = fetchBinaryData.extract w name₂ sourceUrl data) ∧
    (∀ binaryName tarUrl, hasSuffix tarUrl ".tar.gz" = true →
      hasSuffix tarUrl ".gz" = true ∧
      fetchBinaryData.extract w binaryName tarUrl data =
        match unTgzFileNamed w binaryName data with
        | (_, some err) => ([], some ("Error extracting binary from tgz archive: " ++ err))
        | (out, none) => (out, none)) := by
  refine ⟨?_, ?_, ?_, ?_⟩
  · intro binaryName
    simp [fetchBinaryData.extract, hTarGz, hTgz, hGz]
  · intro binaryName decompressed hOpen hEof
    simp [fetchBinaryData.extract, hTarGz, hTgz, hGz, unGzip, hOpen, ioReadAll, hEof]
  · intro name₁ name₂
    simp [fetchBinaryData.extract, hTarGz, hTgz, hGz]
  · intro binaryName tarUrl hTar
    refine ⟨hasSuffix_gz_of_tar_gz tarUrl hTar, ?_⟩
    simp [fetchBinaryData.extract, hTar]

theorem extract_plain_gzip_witness :
    hasSuffix "https://example.com/dl/tool.gz" ".gz" = true ∧
    hasSuffix "https://example.com/dl/tool.gz" ".tar.gz" = false ∧
    hasSuffix "https://example.com/dl/tool.gz" ".tgz" = false ∧
    fetchBinaryData.extract exampleWorld "tool" "https://example.com/dl/tool.gz" exampleGz
      = ([7, 8, 9], none) :=
  ⟨by decide, by decide, by decide,
   (extract_plain_gzip exampleWorld "https://example.com/dl/tool.gz" exampleGz
      (by decide) (by decide) (by decide)).2.1 "tool" { data := [7, 8, 9], err := none }
      rfl rfl⟩

/-! ## Archive extractor: the named entry of a tar archive -/

/-- The second component of `pathSplit` is the component after the last
slash: the two components make up the path, the second has no slash, and the
first is empty or ends in a slash. -/
theorem pathSplit_spec (path : String) :
    (pathSplit path).1.data ++ (pathSplit path).2.data = path.data ∧
    '/' ∉ (pathSplit path).2.data ∧
    ((pathSplit path).1.data = [] ∨ (pathSplit path).1.data.getLast? = some '/') := by
  refine ⟨?_, ?_, ?_⟩
  · simp only [pathSplit]
    rw [← List.reverse_append, List.takeWhile_append_dropWhile, List.reverse_reverse]
  · simp only [pathSplit, List.mem_reverse]
    intro hMem
    have := List.mem_takeWhile_imp hMem
    simp at this
  · simp only [pathSplit, List.reverse_eq_nil_iff, List.getLast?_reverse]
    cases hDrop : path.data.reverse.dropWhile (fun c => c != '/') with
    | nil => exact Or.inl rfl
    | cons c cs =>
      right
      have hHead := List.head?_dropWhile_not (fun c => c != '/') path.data.reverse
      rw [hDrop] at hHead
      simpa using hHead

theorem loop_skip (w : World) (binaryName : String) (before rest : List TarEntry)
    (final : Option GoError) (hBefore : ∀ e ∈ before, ¬ isNamed binaryName e) :
    unTgzFileNamed.loop w binaryName (before ++ rest) final
      = unTgzFileNamed.loop w binaryName rest final := by
  induction before with
  | nil => rfl
  | cons e es ih =>
    have hTail : ∀ x ∈ es, ¬ isNamed binaryName x :=
      fun x hx => hBefore x (List.mem_cons_of_mem _ hx)
    have hHead : ¬ isNamed binaryName e := hBefore e (List.mem_cons_self _ _)
    by_cases hReg : e.header.Typeflag = TypeReg
    · have hName : (pathSplit e.header.Name).2 ≠ binaryName := fun h => hHead ⟨hReg, h⟩
      simp [unTgzFileNamed.loop, hReg, hName, ih hTail]
    · simp [unTgzFileNamed.loop, hReg, ih hTail]

theorem appendEscapedRune_plain (table : Char → Bool) (c : Char)
    (hPrint : isPrint table c = true) (hQuote : c ≠ '"') (hBackslash : c ≠ '\\') :
    appendEscapedRune table c = [c] := by
  simp [appendEscapedRune, hPrint, hQuote, hBackslash]

theorem flatMap_plain (table : Char → Bool) (cs : List Char)
    (h : ∀ c ∈ cs, isPrint table c = true ∧ c ≠ '"' ∧ c ≠ '\\') :
    cs.flatMap (appendEscapedRune table) = cs := by
  induction cs with
  | nil => rfl
  | cons c cs ih =>
    have hc := h c (List.mem_cons_self _ _)
    rw [List.flatMap_cons, appendEscapedRune_plain table c hc.1 hc.2.1 hc.2.2,
      ih (fun x hx => h x (List.mem_cons_of_mem _ hx))]
    rfl

theorem strconvQuote_plain (w : World) (name : String) (h : IsPlainName w name) :
    strconvQuote w.unicodeIsPrint name = "\"" ++ name ++ "\"" := by
  apply String.ext
  simp [strconvQuote, flatMap_plain w.unicodeIsPrint name.data h]

/-- C1. For every sought name and every well-formed gzip-compressed tar
payload: when the archive holds a regular-file entry whose name after the last
slash is the sought name, `unTgzFileNamed` succeeds and returns exactly the
content of the first such entry in archive order; whatever entries stand
before it (directories, non-regular entries, regular files of another base
name) and after it have no effect on the result. -/
theorem unTgzFileNamed_first_named (w : World) (binaryName : String) (data : Bytes)
    (before : List TarEntry) (entry : TarEntry) (after : List TarEntry)
    (hTgz : IsTgzOf w data (before ++ entry :: after))
    (hBefore : ∀ e ∈ before, ¬ isNamed binaryName e)
    (hEntry : isNamed binaryName entry) :
    unTgzFileNamed w binaryName data = (entry.body.data, none) := by
  obtain ⟨decompressed, hOpen, hTar, hBodies⟩ := hTgz
  have hBody : entry.body.err = none := hBodies entry (by simp)
  simp [unTgzFileNamed, hOpen, hTar, loop_skip w binaryName before _ none hBefore,
    unTgzFileNamed.loop, hEntry.1, hEntry.2, ioReadAll, hBody]

theorem unTgzFileNamed_first_named_witness :
    IsTgzOf exampleWorld exampleTgz ([exampleDir, exampleOther] ++ exampleFoo :: []) ∧
    (∀ e ∈ [exampleDir, exampleOther], ¬ isNamed "foo" e) ∧
    isNamed "foo" exampleFoo ∧
    unTgzFileNamed exampleWorld "foo" exampleTgz = ([3, 4, 5], none) :=
  have hTgz : IsTgzOf exampleWorld exampleTgz ([exampleDir, exampleOther] ++ exampleFoo :: []) :=
    ⟨{ data := exampleTar, err := none }, rfl, rfl, by decide⟩
  have hBefore : ∀ e ∈ [exampleDir, exampleOther], ¬ isNamed "foo" e := by
    simp [exampleDir, exampleOther, isNamed, TypeReg, TypeDir, pathSplit]
  have hEntry : isNamed "foo" exampleFoo := by
    simp [exampleFoo, isNamed, pathSplit]
  ⟨hTgz, hBefore, hEntry,
   unTgzFileNamed_first_named exampleWorld "foo" exampleTgz _ _ [] hTgz hBefore hEntry⟩

/-- C2 (as amended). For every sought name and every well-formed
gzip-compressed tar payload in which no regular-file entry has the sought base
name (the empty archive included, and archives where only directories or
non-regular entries carry the name), `unTgzFileNamed` returns no bytes and the
error `No file named <q> found in archive`, where `<q>` is the sought name as
the `%q` verb renders it (`strconv.Quote`); for a name of printable characters
without double quote or backslash that is the name verbatim between double
quotes, and the message is `No file named "<binaryName>" found in archive`. -/
theorem unTgzFileNamed_not_found (w : World) (binaryName : String) (data : Bytes)
    (entries : List TarEntry)
    (hTgz : IsTgzOf w data entries)
    (hNone : ∀ e ∈ entries, ¬ isNamed binaryName e) :
    unTgzFileNamed w binaryName data
      = ([], some ("No file named " ++ strconvQuote w.unicodeIsPrint binaryName
          ++ " found in archive")) ∧
    (IsPlainName w binaryName →
      unTgzFileNamed w binaryName data
        = ([], some ("No file named \"" ++ binaryName ++ "\" found in archive"))) := by
  obtain ⟨decompressed, hOpen, hTar, -⟩ := hTgz
  have hLoop := loop_skip w binaryName entries [] none hNone
  rw [List.append_nil] at hLoop
  have hResult : unTgzFileNamed w binaryName data
      = ([], some ("No file named " ++ strconvQuote w.unicodeIsPrint binaryName
          ++ " found in archive")) := by
    simp [unTgzFileNamed, hOpen, hTar, hLoop, unTgzFileNamed.loop, notFoundInArchive]
  refine ⟨hResult, fun hPlain => ?_⟩
  have hLeft : ("No file named " ++ "\"" : String) = "No file named \"" := by decide
  have hRight : ("\"" ++ " found in archive" : String) = "\" found in archive" := by decide
  rw [hResult, strconvQuote_plain w binaryName hPlain, ← String.append_assoc,
    ← String.append_assoc, hLeft, String.append_assoc, hRight]

theorem unTgzFileNamed_not_found_witness :
    IsTgzOf exampleWorld exampleTgz exampleEntries ∧
    (∀ e ∈ exampleEntries, ¬ isNamed "dir" e) ∧
    IsPlainName exampleWorld "dir" ∧
    unTgzFileNamed exampleWorld "dir" exampleTgz
      = ([], some "No file named \"dir\" found in archive") :=
  have hTgz : IsTgzOf exampleWorld exampleTgz exampleEntries :=
    ⟨{ data := exampleTar, err := none }, rfl, rfl, by decide⟩
  have hNone : ∀ e ∈ exampleEntries, ¬ isNamed "dir" e := by
    simp [exampleEntries, exampleDir, exampleOther, exampleFoo, isNamed, TypeReg, TypeDir,
      pathSplit]
  have hPlain : IsPlainName exampleWorld "dir" := by
    simp [IsPlainName, isPrint]
  ⟨hTgz, hNone, hPlain,
   (unTgzFileNamed_not_found exampleWorld "dir" exampleTgz exampleEntries hTgz hNone).2 hPlain⟩

/-- C2 (a name with a double quote). The example archive has no entry named
`a"b`, and the error of `unTgzFileNamed` for that name is
`No file named "a\"b" found in archive`, with the quote escaped by `%q`; it is
not the text `No file named "a"b" found in archive` that holds the name
verbatim between double quotes. -/
theorem unTgzFileNamed_quoted_name :
    IsTgzOf exampleWorld exampleTgz exampleEntries ∧
    (∀ e ∈ exampleEntries, ¬ isNamed "a\"b" e) ∧
    unTgzFileNamed exampleWorld "a\"b" exampleTgz
      = ([], some "No file named \"a\\\"b\" found in archive") ∧
    unTgzFileNamed exampleWorld "a\"b" exampleTgz
      ≠ ([], some ("No file named \"" ++ "a\"b" ++ "\" found in archive")) := by
  refine ⟨⟨{ data := exampleTar, err := none }, rfl, rfl, by decide⟩, ?_, by decide, by decide⟩
  simp [exampleEntries, exampleDir, exampleOther, exampleFoo, isNamed, TypeReg, TypeDir,
    pathSplit]

/-! ## Source URL resolver -/

/-- C5. For every declaration, running OS and running architecture, the view
model carries the declaration's `Version`; its `Platform` and `Arch` are the
two elements of the override pair when `Platforms` has an entry for the OS
that has an entry for the architecture, and the raw OS and architecture
strings when the lookup misses at either level (no `Platforms` map, no entry
for the OS, no entry for the architecture under that OS). -/
theorem newUrlViewModel_overrides (w : World) (binary : configBinary) :
    (newUrlViewModel w binary).Version = binary.Version ∧
    (∀ pOverrides aOverrides, binary.Platforms.lookup w.GOOS = some pOverrides →
      pOverrides.lookup w.GOARCH = some aOverrides →
      (newUrlViewModel w binary).Platform = aOverrides.1 ∧
      (newUrlViewModel w binary).Arch = aOverrides.2) ∧
    (binary.Platforms = [] →
      (newUrlViewModel w binary).Platform = w.GOOS ∧ (newUrlViewModel w binary).Arch = w.GOARCH) ∧
    (binary.Platforms.lookup w.GOOS = none →
      (newUrlViewModel w binary).Platform = w.GOOS ∧ (newUrlViewModel w binary).Arch = w.GOARCH) ∧
    (∀ pOverrides, binary.Platforms.lookup w.GOOS = some pOverrides →
      pOverrides.lookup w.GOARCH = none →
      (newUrlViewModel w binary).Platform = w.GOOS ∧ (newUrlViewModel w binary).Arch = w.GOARCH) := by
  refine ⟨?_, ?_, ?_, ?_, ?_⟩
  · unfold newUrlViewModel
    split
    · split <;> rfl
    · rfl
  · intro pOverrides aOverrides hOs hArch
    simp [newUrlViewModel, hOs, hArch]
  · intro hNil
    simp [newUrlViewModel, hNil]
  · intro hOs
    simp [newUrlViewModel, hOs]
  · intro pOverrides hOs hArch
    simp [newUrlViewModel, hOs, hArch]

theorem newUrlViewModel_overrides_witness :
    jqBinary.Platforms.lookup exampleWorld.GOOS = some [("amd64", ("unknown-linux", "x86_64"))] ∧
    [("amd64", ("unknown-linux", "x86_64"))].lookup exampleWorld.GOARCH
      = some ("unknown-linux", "x86_64") ∧
    (newUrlViewModel exampleWorld jqBinary).Platform = "unknown-linux" ∧
    (newUrlViewModel exampleWorld jqBinary).Arch = "x86_64" :=
  ⟨by decide, by decide,
   (newUrlViewModel_overrides exampleWorld jqBinary).2.1
    [("amd64", ("unknown-linux", "x86_64"))] ("unknown-linux", "x86_64") (by decide) (by decide)⟩

theorem fieldValue_eq_none_iff (vm : urlViewModel) (name : String) :
    fieldValue vm name = none ↔ name ∉ viewModelFields := by
  unfold fieldValue viewModelFields
  by_cases h1 : name = "Version"
  · simp [h1]
  · by_cases h2 : name = "Platform"
    · simp [h2]
    · by_cases h3 : name = "Arch"
      · simp [h3]
      · simp [h1, h2, h3]

/-- Execution stops on an error exactly when it reaches a field that the view
model does not have. -/
theorem executeItems_fails_iff (vm : urlViewModel) (items : List TemplateItem) :
    (executeItems vm items).2 = true ↔ ∃ f ∈ itemFields items, f ∉ viewModelFields := by
  induction items with
  | nil => simp [executeItems, itemFields]
  | cons item items ih =>
    cases item with
    | text t => simp [executeItems, itemFields, ih]
    | field name =>
      cases hValue : fieldValue vm name with
      | none =>
        have hOut := (fieldValue_eq_none_iff vm name).mp hValue
        simp [executeItems, itemFields, hValue, hOut]
      | some value =>
        have hIn : name ∈ viewModelFields := by
          by_contra hOut
          rw [(fieldValue_eq_none_iff vm name).mpr hOut] at hValue
          exact absurd hValue (by simp)
        simp [executeItems, itemFields, hValue, hIn, ih]

theorem templateParse_of_parseTemplate (w : World) (name text : String)
    (nodes : List TemplateNode) (h : parseTemplate text = some nodes) :
    templateParse w name text = .ok (Template.tree name text nodes) := by
  have hClosed : hasUnclosedAction text.data = false := by
    cases hc : hasUnclosedAction text.data with
    | false => rfl
    | true => simp [parseTemplate, hc] at h
  simp [templateParse, hClosed, h]

theorem isParseStage_append (err : GoError) :
    IsParseStage ("Error parsing Source as template: " ++ err) := by
  unfold IsParseStage
  rw [String.data_append]
  exact List.IsPrefix.trans (by decide) (List.prefix_append _ _)

theorem isRenderStage_append (err : GoError) :
    IsRenderStage ("Error rendering Source as template: " ++ err) := by
  unfold IsRenderStage
  rw [String.data_append]
  exact List.IsPrefix.trans (by decide) (List.prefix_append _ _)

theorem not_parseStage_and_renderStage (err : GoError) :
    ¬ (IsParseStage err ∧ IsRenderStage err) := by
  rintro ⟨hParse, hRender⟩
  exact absurd (List.prefix_of_prefix_length_le hParse hRender (by decide)) (by decide)

/-- C6 (as amended). URL resolution fails in two distinguishable stages.  A
`Source` with an unclosed action (as `v{{ .Version`), and any `Source` that
`Parse` rejects, gives the empty URL and the error
`Error parsing Source as template: ...`.  A `Source` of text, field actions
and constant `if` whose execution evaluates a field outside `Version`,
`Platform`, `Arch` (as `v-{{ .DoesNotExist }}`), and any `Source` that parses
and whose execution fails, gives the empty URL and the error
`Error rendering Source as template: ...`.  When every field that is evaluated
is one of the three, resolution succeeds, whatever fields a branch that is not
taken refers to.  The first error is of the parse stage only, the second of
the render stage only, and no error is of both. -/
theorem getSourceUrl_stages (w : World) (binary : configBinary) :
    (hasUnclosedAction binary.Source.data = true →
      getSourceUrl w binary = ("", some ("Error parsing Source as template: "
        ++ w.templateParseError ("sourceUrl" ++ binary.Name) binary.Source))) ∧
    (∀ err, templateParse w ("sourceUrl" ++ binary.Name) binary.Source = .error err →
      getSourceUrl w binary = ("", some ("Error parsing Source as template: " ++ err)) ∧
      IsParseStage ("Error parsing Source as template: " ++ err) ∧
      ¬ IsRenderStage ("Error parsing Source as template: " ++ err)) ∧
    (∀ nodes, parseTemplate binary.Source = some nodes →
      (∃ f ∈ evaluatedFields nodes, f ∉ viewModelFields) →
      getSourceUrl w binary = ("", some ("Error rendering Source as template: "
        ++ w.templateExecuteError ("sourceUrl" ++ binary.Name) binary.Source))) ∧
    (∀ tmpl output err,
      templateParse w ("sourceUrl" ++ binary.Name) binary.Source = .ok tmpl →
      templateExecute w tmpl (newUrlViewModel w binary) = (output, some err) →
      getSourceUrl w binary = ("", some ("Error rendering Source as template: " ++ err)) ∧
      IsRenderStage ("Error rendering Source as template: " ++ err) ∧
      ¬ IsParseStage ("Error rendering Source as template: " ++ err)) ∧
    (∀ nodes, parseTemplate binary.Source = some nodes →
      (∀ f ∈ evaluatedFields nodes, f ∈ viewModelFields) →
      getSourceUrl w binary
        = ((executeItems (newUrlViewModel w binary) (evaluatedItems nodes)).1, none)) ∧
    (∀ err, ¬ (IsParseStage err ∧ IsRenderStage err)) := by
  refine ⟨?_, ?_, ?_, ?_, ?_, not_parseStage_and_renderStage⟩
  · intro hUnclosed
    simp [getSourceUrl, templateParse, hUnclosed]
  · intro err hParse
    exact ⟨by simp [getSourceUrl, hParse], isParseStage_append err,
      fun h => not_parseStage_and_renderStage _ ⟨isParseStage_append err, h⟩⟩
  · intro nodes hNodes hField
    have hFails := (executeItems_fails_iff (newUrlViewModel w binary) (evaluatedItems nodes)).mpr
      hField
    simp [getSourceUrl, templateParse_of_parseTemplate w _ _ nodes hNodes, templateExecute,
      hFails]
  · intro tmpl output err hParse hExecute
    exact ⟨by simp [getSourceUrl, hParse, hExecute], isRenderStage_append err,
      fun h => not_parseStage_and_renderStage _ ⟨h, isRenderStage_append err⟩⟩
  · intro nodes hNodes hFields
    have hOk : (executeItems (newUrlViewModel w binary) (evaluatedItems nodes)).2 = false := by
      cases hRun : (executeItems (newUrlViewModel w binary) (evaluatedItems nodes)).2 with
      | false => rfl
      | true =>
        obtain ⟨f, hMem, hOut⟩ :=
          (executeItems_fails_iff (newUrlViewModel w binary) (evaluatedItems nodes)).mp hRun
        exact absurd (hFields f hMem) hOut
    simp [getSourceUrl, templateParse_of_parseTemplate w _ _ nodes hNodes, templateExecute, hOk]

theorem getSourceUrl_stages_witness :
    hasUnclosedAction "v\x7b\x7b .Version".data = true ∧
    getSourceUrl exampleWorld { fooBinary with Source := "v\x7b\x7b .Version" }
      = ("", some "Error parsing Source as template: template: sourceUrlfoo:1: unclosed action") ∧
    parseTemplate "v-\x7b\x7b .DoesNotExist \x7d\x7d"
      = some [TemplateNode.item (TemplateItem.text "v-"),
          TemplateNode.item (TemplateItem.field "DoesNotExist")] ∧
    (∃ f ∈ evaluatedFields [TemplateNode.item (TemplateItem.text "v-"),
        TemplateNode.item (TemplateItem.field "DoesNotExist")], f ∉ viewModelFields) ∧
    getSourceUrl exampleWorld { fooBinary with Source := "v-\x7b\x7b .DoesNotExist \x7d\x7d" }
      = ("", some ("Error rendering Source as template: "
          ++ exampleWorld.templateExecuteError "sourceUrlfoo"
              "v-\x7b\x7b .DoesNotExist \x7d\x7d")) :=
  have hField : ∃ f ∈ evaluatedFields [TemplateNode.item (TemplateItem.text "v-"),
      TemplateNode.item (TemplateItem.field "DoesNotExist")], f ∉ viewModelFields :=
    ⟨"DoesNotExist", by decide, by decide⟩
  ⟨by decide,
   (getSourceUrl_stages exampleWorld { fooBinary with Source := "v\x7b\x7b .Version" }).1
      (by decide),
   by decide, hField,
   (getSourceUrl_stages exampleWorld
      { fooBinary with Source := "v-\x7b\x7b .DoesNotExist \x7d\x7d" }).2.2.1 _ (by decide)
      hField⟩

/-- C6 (a reference that is not evaluated). The `Source`
`{{if false}}{{.DoesNotExist}}{{end}}x` is well formed and refers to the field
`DoesNotExist`, which is none of `Version`, `Platform`, `Arch`; `getSourceUrl`
returns the URL `x` and no error for it, not a render-stage error. -/
theorem getSourceUrl_unevaluated_field :
    parseTemplate deadBranchSource
      = some [TemplateNode.ifConst false [TemplateItem.field "DoesNotExist"] [],
          TemplateNode.item (TemplateItem.text "x")] ∧
    "DoesNotExist" ∈ referencedFields
      [TemplateNode.ifConst false [TemplateItem.field "DoesNotExist"] [],
        TemplateNode.item (TemplateItem.text "x")] ∧
    "DoesNotExist" ∉ viewModelFields ∧
    getSourceUrl exampleWorld { fooBinary with Source := deadBranchSource } = ("x", none) := by
  refine ⟨by decide, by decide, by decide, by decide⟩

/-! ## Installer -/

theorem statOk_writeFile_self (files : Files) (path : String) (data : Bytes) :
    statOk (writeFile files path data) path = true := by
  simp [statOk, writeFile]

theorem statOk_writeFile_of_statOk (files : Files) (path other : String) (data : Bytes)
    (h : statOk files other = true) : statOk (writeFile files path data) other = true := by
  by_cases hEq : path = other
  · subst hEq
    exact statOk_writeFile_self files path data
  · simp only [statOk, writeFile, List.any_cons, List.any_eq_true, Bool.or_eq_true] at h ⊢
    obtain ⟨f, hMem, hPath⟩ := h
    refine Or.inr ⟨f, ?_, hPath⟩
    have hf : f.1 = other := by simpa using hPath
    simp [List.mem_filter, hMem, hf, Ne.symm hEq]

/-- A binary whose destination is on disk is skipped: one `os.Stat`, one
printed line, nothing else. -/
theorem body_of_present (w : World) (homeDir : String) (binary : configBinary) (s : State)
    (h : statOk s.files (destPath homeDir binary) = true) :
    Install.body w homeDir binary s =
      (none, { s with statLog := s.statLog ++ [destPath homeDir binary],
                      stdout := s.stdout ++ [binary.Name ++ " already installed\n"] }) := by
  simp [Install.body, h]

/-- The outcomes of the loop body for a binary whose destination is not on
disk, phase by phase. -/
theorem body_of_absent (w : World) (homeDir : String) (binary : configBinary) (s : State)
    (h : statOk s.files (destPath homeDir binary) = false) (result : Option GoError) (s1 : State)
    (hBody : Install.body w homeDir binary s = (result, s1)) :
    s1.statLog = s.statLog ++ [destPath homeDir binary] ∧
    s1.resolveLog = s.resolveLog ++ [binary.Name] ∧
    ((∃ err, (getSourceUrl w binary).2 = some err ∧
        result = some ("Error getting source url for " ++ binary.Name ++ ": " ++ err) ∧
        s1.files = s.files ∧ s1.fetchLog = s.fetchLog ∧ s1.writeLog = s.writeLog) ∨
     (∃ url err, getSourceUrl w binary = (url, none) ∧
        (fetchBinaryData w binary.Name url).2 = some err ∧
        result = some ("Error downloading binary for " ++ binary.Name ++ ": " ++ err) ∧
        s1.files = s.files ∧ s1.fetchLog = s.fetchLog ++ [url] ∧ s1.writeLog = s.writeLog) ∨
     (∃ url data err, getSourceUrl w binary = (url, none) ∧
        fetchBinaryData w binary.Name url = (data, none) ∧
        w.osWriteFile s.files (destPath homeDir binary) data = WriteOutcome.openFailed err ∧
        result = some ("Error writing binary to disk: " ++ err) ∧
        s1.files = s.files ∧ s1.fetchLog = s.fetchLog ++ [url] ∧
        s1.writeLog = s.writeLog ++ [(destPath homeDir binary, data)]) ∨
     (∃ url data err written, getSourceUrl w binary = (url, none) ∧
        fetchBinaryData w binary.Name url = (data, none) ∧
        w.osWriteFile s.files (destPath homeDir binary) data
          = WriteOutcome.writeFailed err written ∧
        result = some ("Error writing binary to disk: " ++ err) ∧
        s1.files = writeFile s.files (destPath homeDir binary) (data.take written) ∧
        s1.fetchLog = s.fetchLog ++ [url] ∧
        s1.writeLog = s.writeLog ++ [(destPath homeDir binary, data)]) ∨
     (∃ url data, getSourceUrl w binary = (url, none) ∧
        fetchBinaryData w binary.Name url = (data, none) ∧
        w.osWriteFile s.files (destPath homeDir binary) data = WriteOutcome.ok ∧
        result = none ∧
        s1.files = writeFile s.files (destPath homeDir binary) data ∧
        s1.fetchLog = s.fetchLog ++ [url] ∧
        s1.writeLog = s.writeLog ++ [(destPath homeDir binary, data)])) := by
  rcases hUrl : getSourceUrl w binary with ⟨url, _ | err⟩
  · rcases hFetch : fetchBinaryData w binary.Name url with ⟨data, _ | err⟩
    · cases hWrite : w.osWriteFile s.files (destPath homeDir binary) data with
      | ok =>
        simp [Install.body, h, hUrl, hFetch, hWrite] at hBody
        obtain ⟨rfl, rfl⟩ := hBody
        exact ⟨rfl, rfl, Or.inr (Or.inr (Or.inr (Or.inr
          ⟨url, data, rfl, hFetch, hWrite, rfl, rfl, rfl, rfl⟩)))⟩
      | openFailed err =>
        simp [Install.body, h, hUrl, hFetch, hWrite] at hBody
        obtain ⟨rfl, rfl⟩ := hBody
        exact ⟨rfl, rfl, Or.inr (Or.inr (Or.inl
          ⟨url, data, err, rfl, hFetch, hWrite, rfl, rfl, rfl, rfl⟩))⟩
      | writeFailed err written =>
        simp [Install.body, h, hUrl, hFetch, hWrite] at hBody
        obtain ⟨rfl, rfl⟩ := hBody
        exact ⟨rfl, rfl, Or.inr (Or.inr (Or.inr (Or.inl
          ⟨url, data, err, written, rfl, hFetch, hWrite, rfl, rfl, rfl, rfl⟩)))⟩
    · simp [Install.body, h, hUrl, hFetch] at hBody
      obtain ⟨rfl, rfl⟩ := hBody
      exact ⟨rfl, rfl, Or.inr (Or.inl ⟨url, err, rfl, by rw [hFetch], rfl, rfl, rfl, rfl⟩)⟩
  · simp [Install.body, h, hUrl] at hBody
    obtain ⟨rfl, rfl⟩ := hBody
    exact ⟨rfl, rfl, Or.inl ⟨err, rfl, rfl, rfl, rfl, rfl⟩⟩

/-- The loop body never removes a file, and after a round that does not fail
the destination of its binary is on disk. -/
theorem body_files (w : World) (homeDir : String) (binary : configBinary) (s s1 : State)
    (result : Option GoError) (hBody : Install.body w homeDir binary s = (result, s1)) :
    (∀ path, statOk s.files path = true → statOk s1.files path = true) ∧
    (result = none → statOk s1.files (destPath homeDir binary) = true) := by
  cases h : statOk s.files (destPath homeDir binary) with
  | true =>
    rw [body_of_present w homeDir binary s h] at hBody
    obtain ⟨rfl, rfl⟩ := Prod.mk.inj hBody
    exact ⟨fun _ hp => hp, fun _ => h⟩
  | false =>
    obtain ⟨-, -, hCases⟩ := body_of_absent w homeDir binary s h result s1 hBody
    rcases hCases with ⟨err, -, hRes, hFiles, -⟩ | ⟨url, err, -, -, hRes, hFiles, -⟩ |
      ⟨url, data, err, -, -, -, hRes, hFiles, -⟩ |
      ⟨url, data, err, written, -, -, -, hRes, hFiles, -⟩ | ⟨url, data, -, -, -, -, hFiles, -⟩
    · exact ⟨fun _ hp => hFiles ▸ hp, fun hNone => by simp [hRes] at hNone⟩
    · exact ⟨fun _ hp => hFiles ▸ hp, fun hNone => by simp [hRes] at hNone⟩
    · exact ⟨fun _ hp => hFiles ▸ hp, fun hNone => by simp [hRes] at hNone⟩
    · rw [hFiles]
      exact ⟨fun path hp => statOk_writeFile_of_statOk _ _ path _ hp,
        fun hNone => by simp [hRes] at hNone⟩
    · rw [hFiles]
      exact ⟨fun path hp => statOk_writeFile_of_statOk _ _ path _ hp,
        fun _ => statOk_writeFile_self _ _ _⟩

/-- After a loop that does not fail, every destination of the manifest is on
disk, and so is every file that was there before. -/
theorem loop_files (w : World) (homeDir : String) (binaries : List configBinary) :
    ∀ s s1 : State, Install.loop w homeDir binaries s = (none, s1) →
      (∀ path, statOk s.files path = true → statOk s1.files path = true) ∧
      (∀ binary ∈ binaries, statOk s1.files (destPath homeDir binary) = true) := by
  induction binaries with
  | nil =>
    intro s s1 hLoop
    simp only [Install.loop] at hLoop
    obtain ⟨-, rfl⟩ := Prod.mk.inj hLoop
    exact ⟨fun _ hp => hp, fun _ hMem => absurd hMem (List.not_mem_nil _)⟩
  | cons b rest ih =>
    intro s s1 hLoop
    rcases hBody : Install.body w homeDir b s with ⟨_ | err, sMid⟩
    · simp only [Install.loop, hBody] at hLoop
      obtain ⟨hKeep, hHere⟩ := body_files w homeDir b s sMid none hBody
      obtain ⟨hKeepRest, hRest⟩ := ih sMid s1 hLoop
      refine ⟨fun path hp => hKeepRest path (hKeep path hp), fun binary hMem => ?_⟩
      rcases List.mem_cons.mp hMem with rfl | hIn
      · exact hKeepRest _ (hHere rfl)
      · exact hRest binary hIn
    · simp [Install.loop, hBody] at hLoop

/-- A loop over binaries that are all on disk fails nowhere and touches neither
the disk nor the network. -/
theorem loop_of_present (w : World) (homeDir : String) (binaries : List configBinary) :
    ∀ s : State, (∀ binary ∈ binaries, statOk s.files (destPath homeDir binary) = true) →
      ∃ s1, Install.loop w homeDir binaries s = (none, s1) ∧ s1.files = s.files ∧
        s1.resolveLog = s.resolveLog ∧ s1.fetchLog = s.fetchLog ∧ s1.writeLog = s.writeLog := by
  induction binaries with
  | nil => exact fun s _ => ⟨s, rfl, rfl, rfl, rfl, rfl⟩
  | cons b rest ih =>
    intro s hAll
    have hHead := body_of_present w homeDir b s (hAll b (List.mem_cons_self _ _))
    obtain ⟨s1, hLoop, hFiles, hResolve, hFetch, hWrite⟩ :=
      ih { s with statLog := s.statLog ++ [destPath homeDir b],
                  stdout := s.stdout ++ [b.Name ++ " already installed\n"] }
        (fun binary hMem => hAll binary (List.mem_cons_of_mem _ hMem))
    exact ⟨s1, by simp only [Install.loop, hHead, hLoop], hFiles, hResolve, hFetch, hWrite⟩

/-- A failure of the loop body ends the loop: the binaries after it do not
enter the result. -/
theorem loop_fail (w : World) (homeDir : String) (before : List configBinary)
    (binary : configBinary) (after : List configBinary) :
    ∀ (s s1 s2 : State) (err : GoError), Install.loop w homeDir before s = (none, s1) →
      Install.body w homeDir binary s1 = (some err, s2) →
      Install.loop w homeDir (before ++ binary :: after) s = (some err, s2) := by
  induction before with
  | nil =>
    intro s s1 s2 err hBefore hFail
    simp only [Install.loop] at hBefore
    obtain ⟨-, rfl⟩ := Prod.mk.inj hBefore
    simp [Install.loop, hFail]
  | cons b rest ih =>
    intro s s1 s2 err hBefore hFail
    rcases hBody : Install.body w homeDir b s with ⟨_ | e, sMid⟩
    · simp only [Install.loop, hBody] at hBefore
      simp only [List.cons_append, Install.loop, hBody]
      exact ih sMid s1 s2 err hBefore hFail
    · simp [Install.loop, hBody] at hBefore

/-! ### Every failing phase makes the loop body fail -/

theorem getSourceUrl_of_resolveFails (w : World) (binary : configBinary)
    (h : ResolveFails w binary) : ∃ err, getSourceUrl w binary = ("", some err) := by
  rcases h with ⟨err, hParse⟩ | ⟨tmpl, output, err, hParse, hExecute⟩
  · exact ⟨"Error parsing Source as template: " ++ err, by simp [getSourceUrl, hParse]⟩
  · exact ⟨"Error rendering Source as template: " ++ err,
      by simp [getSourceUrl, hParse, hExecute]⟩

theorem getSourceUrl_of_resolvesTo (w : World) (binary : configBinary) (url : String)
    (h : ResolvesTo w binary url) : getSourceUrl w binary = (url, none) := by
  obtain ⟨tmpl, hParse, hExecute⟩ := h
  simp [getSourceUrl, hParse, hExecute]

theorem loop_of_none_named (w : World) (binaryName : String) (entries : List TarEntry)
    (final : Option GoError) (hNone : ∀ e ∈ entries, ¬ isNamed binaryName e) :
    ∃ err, unTgzFileNamed.loop w binaryName entries final = ([], some err) := by
  have hLoop := loop_skip w binaryName entries [] final hNone
  rw [List.append_nil] at hLoop
  rw [hLoop]
  cases final with
  | none => exact ⟨_, rfl⟩
  | some err => exact ⟨_, rfl⟩

theorem unTgzFileNamed_of_tgzFails (w : World) (binaryName : String) (data : Bytes)
    (h : TgzFails w binaryName data) :
    ∃ err, unTgzFileNamed w binaryName data = ([], some err) := by
  rcases h with ⟨err, hOpen⟩ | ⟨decompressed, hOpen, hNone | hBody⟩
  · exact ⟨"Error decompressing Gzipped data: " ++ err, by simp [unTgzFileNamed, hOpen]⟩
  · obtain ⟨err, hLoop⟩ := loop_of_none_named w binaryName _ (w.tarNewReader decompressed).final
      hNone
    exact ⟨err, by simp [unTgzFileNamed, hOpen, hLoop]⟩
  · obtain ⟨before, entry, after, err, hEntries, hBefore, hEntry, hErr⟩ := hBody
    refine ⟨"Error extracting file from tar: " ++ err, ?_⟩
    simp [unTgzFileNamed, hOpen, hEntries, loop_skip w binaryName before _ _ hBefore,
      unTgzFileNamed.loop, hEntry.1, hEntry.2, ioReadAll, hErr]

theorem unGzip_of_gzFails (w : World) (data : Bytes) (h : GzFails w data) :
    ∃ err, (unGzip w data).2 = some err := by
  rcases h with ⟨err, hOpen⟩ | ⟨decompressed, err, hOpen, hErr⟩
  · exact ⟨"Error decompressing Gzipped data: " ++ err, by simp [unGzip, hOpen]⟩
  · exact ⟨err, by simp [unGzip, hOpen, ioReadAll, hErr]⟩

theorem extract_of_extractFails (w : World) (binaryName sourceUrl : String) (data : Bytes)
    (h : ExtractFails w binaryName sourceUrl data) :
    ∃ err, fetchBinaryData.extract w binaryName sourceUrl data = ([], some err) := by
  rcases h with ⟨hSuffix, hTgz⟩ | ⟨hTarGz, hTgzSuffix, hGz, hFails⟩
  · obtain ⟨err, hErr⟩ := unTgzFileNamed_of_tgzFails w binaryName data hTgz
    have hCond : (hasSuffix sourceUrl ".tar.gz" || hasSuffix sourceUrl ".tgz") = true := by
      rcases hSuffix with h1 | h2
      · simp [h1]
      · simp [h2]
    exact ⟨"Error extracting binary from tgz archive: " ++ err,
      by simp [fetchBinaryData.extract, hCond, hErr]⟩
  · obtain ⟨err, hErr⟩ := unGzip_of_gzFails w data hFails
    rcases hRes : unGzip w data with ⟨out, _ | e⟩
    · rw [hRes] at hErr
      simp at hErr
    · exact ⟨"Error extracting binary from gzip archive: " ++ e,
        by simp [fetchBinaryData.extract, hTarGz, hTgzSuffix, hGz, hRes]⟩

theorem fetchBinaryData_of_fetchFails (w : World) (binaryName url : String)
    (h : FetchFails w url) : ∃ err, fetchBinaryData w binaryName url = ([], some err) := by
  rcases h with ⟨err, hGet⟩ | ⟨resp, err, hGet, hBody⟩
  · exact ⟨"Error requesting binary: " ++ err, by simp [fetchBinaryData, hGet]⟩
  · exact ⟨"Error reading response body: " ++ err,
      by simp [fetchBinaryData, hGet, ioReadAll, hBody]⟩

theorem fetchBinaryData_of_response (w : World) (binaryName url : String) (resp : Response)
    (hGet : w.httpGet url = .ok resp) (hBody : resp.Body.err = none) :
    fetchBinaryData w binaryName url
      = fetchBinaryData.extract w binaryName url resp.Body.data := by
  simp [fetchBinaryData, hGet, ioReadAll, hBody]

/-- A failure at any phase makes the loop body return an error. -/
theorem body_of_processingFails (w : World) (homeDir : String) (binary : configBinary)
    (s : State) (hAbsent : statOk s.files (destPath homeDir binary) = false)
    (hFails : ProcessingFails w homeDir binary s.files) :
    ∃ err s1, Install.body w homeDir binary s = (some err, s1) := by
  rcases hFails with hResolve | ⟨url, hUrl, hRest⟩
  · obtain ⟨err, hErr⟩ := getSourceUrl_of_resolveFails w binary hResolve
    exact ⟨_, _, by simp only [Install.body, hAbsent, hErr]; rfl⟩
  · have hResolved := getSourceUrl_of_resolvesTo w binary url hUrl
    rcases hRest with hFetch | ⟨resp, hGet, hBody, hExtract | ⟨data, hData, hWrite⟩⟩
    · obtain ⟨err, hErr⟩ := fetchBinaryData_of_fetchFails w binary.Name url hFetch
      exact ⟨_, _, by simp only [Install.body, hAbsent, hResolved, hErr]; rfl⟩
    · obtain ⟨err, hErr⟩ := extract_of_extractFails w binary.Name url _ hExtract
      rw [← fetchBinaryData_of_response w binary.Name url resp hGet hBody] at hErr
      exact ⟨_, _, by simp only [Install.body, hAbsent, hResolved, hErr]; rfl⟩
    · rw [← fetchBinaryData_of_response w binary.Name url resp hGet hBody] at hData
      rcases hWrite with ⟨err, hOut⟩ | ⟨err, written, hOut⟩
      · exact ⟨_, _, by simp only [Install.body, hAbsent, hResolved, hData, hOut]; rfl⟩
      · exact ⟨_, _, by simp only [Install.body, hAbsent, hResolved, hData, hOut]; rfl⟩

/-- C7. Installer idempotence over the state of disk and call logs.  A binary
whose destination path (home directory, `.local/bin`, `Name`) is on disk is
skipped: the loop body checks the path, prints a line, and performs no URL
resolution, no fetch and no write.  Hence when every destination of the
manifest is on disk a run resolves, fetches and writes nothing and leaves the
disk as it was, and so does a second run after a run that ended without
error. -/
theorem Install_idempotent (w : World) (s : State) :
    (∀ homeDir binary, statOk s.files (destPath homeDir binary) = true →
      Install.body w homeDir binary s =
        (none, { s with statLog := s.statLog ++ [destPath homeDir binary],
                        stdout := s.stdout ++ [binary.Name ++ " already installed\n"] })) ∧
    (∀ config homeDir, w.loadConfig = .ok config → w.userHomeDir = .ok homeDir →
      (∀ binary ∈ config.Binaries, statOk s.files (destPath homeDir binary) = true) →
      ∃ s1, Install w s = (none, s1) ∧ s1.files = s.files ∧ s1.resolveLog = s.resolveLog ∧
        s1.fetchLog = s.fetchLog ∧ s1.writeLog = s.writeLog) ∧
    (∀ s1, Install w s = (none, s1) →
      ∃ s2, Install w s1 = (none, s2) ∧ s2.files = s1.files ∧ s2.resolveLog = s1.resolveLog ∧
        s2.fetchLog = s1.fetchLog ∧ s2.writeLog = s1.writeLog) := by
  refine ⟨fun homeDir binary h => body_of_present w homeDir binary s h, ?_, ?_⟩
  · intro config homeDir hConfig hHome hAll
    simp only [Install, hConfig, hHome]
    exact loop_of_present w homeDir config.Binaries s hAll
  · intro s1 hFirst
    rcases hConfig : w.loadConfig with err | config
    · simp [Install, hConfig] at hFirst
    · rcases hHome : w.userHomeDir with err | homeDir
      · simp [Install, hConfig, hHome] at hFirst
      · simp only [Install, hConfig, hHome] at hFirst ⊢
        exact loop_of_present w homeDir config.Binaries s1
          (loop_files w homeDir config.Binaries s s1 hFirst).2

/-- C8 (as amended). Run-level fail-fast.  When the binaries before position
`k` of the manifest are processed without error, the destination of binary `k`
is not on disk, and its processing fails at any phase (URL resolution, fetch,
extraction or write), `Install` returns an error, whatever binaries follow.
The presence checks, URL resolutions, fetches and writes recorded are those of
the binaries before `k` followed by those of `k` itself (one check and one
resolution, at most one fetch, at most one write call, on the destination of
`k`), none for a later binary.  The disk is as the binaries before `k` left it,
except when the failing phase is the write itself and `os.WriteFile` had
already created or truncated the file: then the destination of `k`, and no
other path, holds the bytes written before the failure. -/
theorem Install_fail_fast (w : World) (s s1 : State) (homeDir : String)
    (before : List configBinary) (binary : configBinary) (after : List configBinary)
    (hConfig : w.loadConfig = .ok { Binaries := before ++ binary :: after })
    (hHome : w.userHomeDir = .ok homeDir)
    (hBefore : Install.loop w homeDir before s = (none, s1))
    (hAbsent : statOk s1.files (destPath homeDir binary) = false)
    (hFails : ProcessingFails w homeDir binary s1.files) :
    ∃ err s2, Install w s = (some err, s2) ∧
      s2.statLog = s1.statLog ++ [destPath homeDir binary] ∧
      s2.resolveLog = s1.resolveLog ++ [binary.Name] ∧
      (s2.fetchLog = s1.fetchLog ∨ ∃ url, s2.fetchLog = s1.fetchLog ++ [url]) ∧
      ((s2.writeLog = s1.writeLog ∧ s2.files = s1.files) ∨
       ∃ data, s2.writeLog = s1.writeLog ++ [(destPath homeDir binary, data)] ∧
         ((∃ e, w.osWriteFile s1.files (destPath homeDir binary) data
              = WriteOutcome.openFailed e ∧ s2.files = s1.files) ∨
          (∃ e written, w.osWriteFile s1.files (destPath homeDir binary) data
              = WriteOutcome.writeFailed e written ∧
            s2.files = writeFile s1.files (destPath homeDir binary) (data.take written)))) := by
  obtain ⟨err, s2, hBody⟩ := body_of_processingFails w homeDir binary s1 hAbsent hFails
  have hRun : Install w s = (some err, s2) := by
    simp only [Install, hConfig, hHome]
    exact loop_fail w homeDir before binary after s s1 s2 err hBefore hBody
  obtain ⟨hStatLog, hResolve, hCases⟩ :=
    body_of_absent w homeDir binary s1 hAbsent (some err) s2 hBody
  refine ⟨err, s2, hRun, hStatLog, hResolve, ?_, ?_⟩
  · rcases hCases with ⟨_, -, -, -, hFetch, -⟩ | ⟨url, _, -, -, -, -, hFetch, -⟩ |
      ⟨url, _, _, -, -, -, -, -, hFetch, -⟩ | ⟨url, _, _, _, -, -, -, -, -, hFetch, -⟩ |
      ⟨_, _, -, -, -, hRes, -⟩
    · exact Or.inl hFetch
    · exact Or.inr ⟨url, hFetch⟩
    · exact Or.inr ⟨url, hFetch⟩
    · exact Or.inr ⟨url, hFetch⟩
    · simp at hRes
  · rcases hCases with ⟨_, -, -, hFiles, -, hWrite⟩ | ⟨_, _, -, -, -, hFiles, -, hWrite⟩ |
      ⟨_, data, e, -, -, hOut, -, hFiles, -, hWrite⟩ |
      ⟨_, data, e, written, -, -, hOut, -, hFiles, -, hWrite⟩ | ⟨_, _, -, -, -, hRes, -⟩
    · exact Or.inl ⟨hWrite, hFiles⟩
    · exact Or.inl ⟨hWrite, hFiles⟩
    · exact Or.inr ⟨data, hWrite, Or.inl ⟨e, hOut, hFiles⟩⟩
    · exact Or.inr ⟨data, hWrite, Or.inr ⟨e, written, hOut, hFiles⟩⟩
    · simp at hRes

theorem Install_exampleWorld : Install exampleWorld emptyState = (none, installedState) := by
  decide

theorem Install_idempotent_witness :
    Install exampleWorld emptyState = (none, installedState) ∧
    ∃ s2, Install exampleWorld installedState = (none, s2) ∧ s2.files = installedState.files ∧
      s2.resolveLog = installedState.resolveLog ∧ s2.fetchLog = installedState.fetchLog ∧
      s2.writeLog = installedState.writeLog :=
  ⟨Install_exampleWorld,
   (Install_idempotent exampleWorld emptyState).2.2 installedState Install_exampleWorld⟩

theorem Install_fail_fast_witness :
    brokenWorld.loadConfig = .ok { Binaries := [fooBinary] ++ badBinary :: [jqBinary] } ∧
    brokenWorld.userHomeDir = .ok "/home/u" ∧
    Install.loop brokenWorld "/home/u" [fooBinary] emptyState = (none, fooInstalledState) ∧
    statOk fooInstalledState.files (destPath "/home/u" badBinary) = false ∧
    ProcessingFails brokenWorld "/home/u" badBinary fooInstalledState.files ∧
    Install brokenWorld emptyState
      = (some ("Error getting source url for bad: Error parsing Source as template: "
          ++ "template: sourceUrlbad:1: unclosed action"), badFailedState) ∧
    ∃ err s2, Install brokenWorld emptyState = (some err, s2) ∧
      s2.statLog = fooInstalledState.statLog ++ [destPath "/home/u" badBinary] ∧
      s2.resolveLog = fooInstalledState.resolveLog ++ [badBinary.Name] :=
  have hFails : ProcessingFails brokenWorld "/home/u" badBinary fooInstalledState.files :=
    Or.inl (Or.inl ⟨"template: sourceUrlbad:1: unclosed action", rfl⟩)
  have h := Install_fail_fast brokenWorld emptyState fooInstalledState "/home/u"
    [fooBinary] badBinary [jqBinary] rfl rfl (by decide) (by decide) hFails
  ⟨rfl, rfl, by decide, by decide, hFails, by decide,
   h.elim fun err h1 => h1.elim fun s2 h2 => ⟨err, s2, h2.1, h2.2.1, h2.2.2.1⟩⟩

/-- C8 (a write that fails midway). In the world with a full disk the first
binary of the manifest fails at the write, no binary stands before it, and
`Install` returns the error; the disk, empty before the run, then holds the
file `/home/u/.local/bin/foo` with the one byte written before the failure,
so that the writes for the binaries before the failing one (none) are not the
only change to the disk. -/
theorem Install_partial_write :
    diskFullWorld.loadConfig = .ok { Binaries := [] ++ fooBinary :: [jqBinary] } ∧
    Install.loop diskFullWorld "/home/u" [] emptyState = (none, emptyState) ∧
    Install diskFullWorld emptyState
      = (some "Error writing binary to disk: write /home/u/.local/bin/foo: no space left on device",
         diskFullState) ∧
    diskFullState.files = [("/home/u/.local/bin/foo", [3])] ∧
    diskFullState.files ≠ emptyState.files := by
  refine ⟨rfl, rfl, by decide, rfl, by decide⟩

/-! ## Error texts -/

set_option maxRecDepth 8000 in
/-- C4 (the write phase). With the manifest entry named `./jq` and a read-only
destination directory, `Install` fails at the write with
`Error writing binary to disk: open /home/u/.local/bin/jq: permission denied`:
the text names the phase and the cleaned destination path, and the `Name` of
the binary does not occur in it. -/
theorem Install_write_error_text :
    (Install dotSlashWorld emptyState).1
      = some "Error writing binary to disk: open /home/u/.local/bin/jq: permission denied" ∧
    ¬ ("./jq".data <:+:
        "Error writing binary to disk: open /home/u/.local/bin/jq: permission denied".data) := by
  decide

/-- With no `%` in the format, `fmt.Errorf(format)` has the format as its
text. -/
theorem errorfNoOperands_of_no_percent (format : String) (h : '%' ∉ format.data) :
    errorfNoOperands format = format := by
  have hTake : format.data.takeWhile (fun c => c != '%') = format.data :=
    List.takeWhile_eq_self_iff.mpr
      (fun c hc => by simpa using fun hEq : c = '%' => h (hEq ▸ hc))
  have hDrop : format.data.dropWhile (fun c => c != '%') = [] :=
    List.dropWhile_eq_nil_iff.mpr
      (fun c hc => by simpa using fun hEq : c = '%' => h (hEq ▸ hc))
  apply String.ext
  simp only [errorfNoOperands, String.length, doPrintfLoop, hDrop, hTake]

/-- The error text of `GetLatestRelease` for a non-success response whose body
decodes to the message `m`: `m` formatted as a format string without
operands. -/
theorem GetLatestRelease_error_text (w : github.ClientWorld) (org repo : String)
    (resp : Response) (m : String)
    (hRequest : w.newRequestError "GET"
      ("https://api.github.com/repos/" ++ org ++ "/" ++ repo ++ "/releases/latest") = none)
    (hDo : ∀ request, w.httpDo request = .ok resp)
    (hStatus : resp.StatusCode ≠ github.StatusOK)
    (hBody : resp.Body.err = none)
    (hJson : w.jsonUnmarshalErrorBody resp.Body.data = .ok { Message := m }) :
    github.GetLatestRelease w org repo = (none, some (errorfNoOperands m)) := by
  simp [github.GetLatestRelease, hRequest, hDo, ioReadAll, hBody, hStatus, github.parseError, hJson]

/-- C3 (a message with a percent sign). For the 403 response whose body is
`{"message":"100% of quota used"}`, `GetLatestRelease` returns no release and
the error text `100%!o(MISSING)f quota used`, which is not the message. -/
theorem GetLatestRelease_percent_message :
    quotaWorld.httpDo (github.Request.mk "GET"
        "https://api.github.com/repos/noizwaves/garb/releases/latest"
        [("Accept", "application/vnd.github+json"), ("X-GitHub-Api-Version", "2022-11-28")])
      = .ok { StatusCode := 403, Body := { data := quotaBody, err := none } } ∧
    quotaWorld.jsonUnmarshalErrorBody quotaBody = .ok { Message := "100% of quota used" } ∧
    github.GetLatestRelease quotaWorld "noizwaves" "garb"
      = (none, some "100%!o(MISSING)f quota used") ∧
    github.GetLatestRelease quotaWorld "noizwaves" "garb"
      ≠ (none, some "100% of quota used") := by
  refine ⟨rfl, rfl, ?_, ?_⟩ <;> decide

end Garb
